import Mathlib

/-!
Verification of the txt-suite binary structure decoders.

A shallow embedding of `pkg/api/txt.go` (the TXT register-space decoder and the
BIOS data region parser) together with the parts of the Go standard library
they call (`bytes.Reader`, `io.ReadFull`, `encoding/binary.Read`).

Conventions
* Go machine integers are `Nat`; a conversion `uintN(x)` is `x % 2 ^ N`.
* A Go function returning `(T, error)` is a Lean function returning
  `T × Option GoError`; `none` is the `nil` error.
* A nil-able pointer field (`*uint32`, `*TXTBiosMLEFlags`) is an `Option`.
-/

namespace TxtSuite


/-! ## Go runtime values -/

/-- One element of a Go `[]byte`. -/
abbrev Byte := Fin 256

/-- Go `error` values that the decoders can return.
`EOF` and `ErrUnexpectedEOF` are the sentinels of package `io`;
`errorString` is what `errors.New` and `fmt.Errorf` build from a message. -/
inductive GoError where
  | EOF : GoError
  | ErrUnexpectedEOF : GoError
  | errorString (s : String) : GoError
  deriving DecidableEq, Repr

/-- State of a `bytes.Reader`: the underlying slice `s` and the read index `i`. -/
structure Reader where
  s : List Byte
  i : Nat
  deriving DecidableEq, Repr

/-- Go `bytes.NewReader(b)`: a reader positioned at the start of `b`. -/
def NewReader (b : List Byte) : Reader := { s := b, i := 0 }

/-- Go `io.ReadFull(r, buf)` with `len(buf) = n` on a `bytes.Reader`.
With at least `n` unread bytes it returns them and advances the index by `n`.
With no unread byte it fails with `io.EOF`; with some but fewer than `n` it
consumes them all and fails with `io.ErrUnexpectedEOF`. -/
def ReadFull (r : Reader) (n : Nat) : Except GoError (List Byte) × Reader :=
  if n ≤ r.s.length - r.i then
    (.ok ((r.s.drop r.i).take n), { r with i := r.i + n })
  else if r.s.length - r.i = 0 then
    (.error .EOF, r)
  else
    (.error .ErrUnexpectedEOF, { r with i := r.s.length })

/-- Go `binary.LittleEndian.Uint32(b)`:
`uint32(b[0]) | uint32(b[1])<<8 | uint32(b[2])<<16 | uint32(b[3])<<24`. -/
def LittleEndianUint32 (b : List Byte) : Nat :=
  (b.getD 0 0).val ||| (b.getD 1 0).val <<< 8 ||| (b.getD 2 0).val <<< 16 |||
    (b.getD 3 0).val <<< 24

/-- Go `binary.LittleEndian.Uint64(b)`: the eight bytes OR-ed together, byte
`k` shifted left by `8 * k`. -/
def LittleEndianUint64 (b : List Byte) : Nat :=
  (b.getD 0 0).val ||| (b.getD 1 0).val <<< 8 ||| (b.getD 2 0).val <<< 16 |||
    (b.getD 3 0).val <<< 24 ||| (b.getD 4 0).val <<< 32 ||| (b.getD 5 0).val <<< 40 |||
    (b.getD 6 0).val <<< 48 ||| (b.getD 7 0).val <<< 56

/-- The static types of the `data` arguments that `ParseBIOSDataRegion` hands
to `binary.Read`. -/
inductive DataType where
  | ptrUint32 : DataType
  | ptrUint64 : DataType
  | ptrPtrUint32 : DataType
  deriving DecidableEq, Repr

/-- Go `binary.intDataSize(data)`: the type switch of the fast path. It has a
case for `*uint32` (4) and `*uint64` (8); any type without a case, such as
`**uint32`, gives 0. -/
def intDataSize : DataType → Nat
  | .ptrUint32 => 4
  | .ptrUint64 => 8
  | .ptrPtrUint32 => 0

/-- Go `reflect.TypeOf(data).String()`. -/
def DataType.String : DataType → String
  | .ptrUint32 => "*uint32"
  | .ptrUint64 => "*uint64"
  | .ptrPtrUint32 => "**uint32"

/-- Go `binary.Read(r, binary.LittleEndian, data)`.
Fast path (`intDataSize data ≠ 0`): `io.ReadFull` of that many bytes, whose
error is returned as is, then the little-endian value is stored through the
pointer (here: returned). Otherwise the reflection fallback computes
`dataSize` of the pointee; for a pointee of pointer kind `sizeof` is `-1`, so
`binary.Read` returns `errors.New("binary.Read: invalid type " + type)`
without touching the reader or the destination. -/
def binaryRead (r : Reader) (data : DataType) : Except GoError Nat × Reader :=
  if intDataSize data ≠ 0 then
    match ReadFull r (intDataSize data) with
    | (.error err, r) => (.error err, r)
    | (.ok bs, r) =>
      match data with
      | .ptrUint64 => (.ok (LittleEndianUint64 bs), r)
      | _ => (.ok (LittleEndianUint32 bs), r)
  else
    (.error (.errorString ("binary.Read: invalid type " ++ data.String)), r)

/-! ## Data model (`pkg/api/txt.go`) -/

structure TXTBiosMLEFlags where
  SupportsACPIPPI : Bool
  IsLegacyState : Bool
  IsServerState : Bool
  IsClientState : Bool
  deriving DecidableEq, Repr

structure TXTBiosData where
  Version : Nat
  BiosSinitSize : Nat
  Reserved1 : Nat
  Reserved2 : Nat
  NumLogProcs : Nat
  SinitFlags : Option Nat
  MleFlags : Option TXTBiosMLEFlags
  deriving DecidableEq, Repr

/-- The Go zero value of `TXTBiosMLEFlags` (`var flags TXTBiosMLEFlags`). -/
def TXTBiosMLEFlags.zero : TXTBiosMLEFlags :=
  { SupportsACPIPPI := false, IsLegacyState := false, IsServerState := false,
    IsClientState := false }

/-- The Go zero value of `TXTBiosData` (`var ret TXTBiosData`). -/
def TXTBiosData.zero : TXTBiosData :=
  { Version := 0, BiosSinitSize := 0, Reserved1 := 0, Reserved2 := 0, NumLogProcs := 0,
    SinitFlags := none, MleFlags := none }

/-- The error of `fmt.Errorf("BIOS DATA regions version < 2 are not supperted")`. -/
def errVersion : GoError := .errorString "BIOS DATA regions version < 2 are not supperted"

/-- The error of `fmt.Errorf("BIOS DATA region is too small")`. -/
def errTooSmall : GoError := .errorString "BIOS DATA region is too small"

/-- The error of `fmt.Errorf("BIOS DATA region corrupted")`. -/
def errCorrupted : GoError := .errorString "BIOS DATA region corrupted"

/-- The last block of `ParseBIOSDataRegion`, from `if ret.Version >= 5` to the
final `return ret, nil`. -/
def parseMleFlags (ret : TXTBiosData) (buf : Reader) : TXTBiosData × Option GoError :=
  if 5 ≤ ret.Version then
    match binaryRead buf .ptrUint32 with
    | (.error err, _) => (ret, some err)
    | (.ok mleFlags, _) =>
      let flags := TXTBiosMLEFlags.zero
      let flags := { flags with SupportsACPIPPI := mleFlags &&& 1 != 0 }
      let flags := { flags with IsClientState := mleFlags &&& 6 == 2 }
      let flags := { flags with IsServerState := mleFlags &&& 6 == 4 }
      let ret := { ret with MleFlags := some flags }
      (ret, none)
  else
    (ret, none)

/-- Go `ParseBIOSDataRegion(heap []byte) (TXTBiosData, error)`.
Each `binary.Read` is followed by the early return `return ret, err`, so the
record built so far travels with the error. -/
def ParseBIOSDataRegion (heap : List Byte) : TXTBiosData × Option GoError :=
  let ret := TXTBiosData.zero
  let buf := NewReader heap
  -- TXT Heap Bios Data size
  match binaryRead buf .ptrUint64 with
  | (.error err, _) => (ret, some err)
  | (.ok _biosDataSize, buf) =>
  -- Bios Data
  match binaryRead buf .ptrUint32 with
  | (.error err, _) => (ret, some err)
  | (.ok version, buf) =>
  let ret := { ret with Version := version }
  if ret.Version < 2 then (ret, some errVersion) else
  match binaryRead buf .ptrUint32 with
  | (.error err, _) => (ret, some err)
  | (.ok biosSinitSize, buf) =>
  let ret := { ret with BiosSinitSize := biosSinitSize }
  if ret.BiosSinitSize < 8 then (ret, some errTooSmall) else
  match binaryRead buf .ptrUint64 with
  | (.error err, _) => (ret, some err)
  | (.ok reserved1, buf) =>
  let ret := { ret with Reserved1 := reserved1 }
  match binaryRead buf .ptrUint64 with
  | (.error err, _) => (ret, some err)
  | (.ok reserved2, buf) =>
  let ret := { ret with Reserved2 := reserved2 }
  match binaryRead buf .ptrUint32 with
  | (.error err, _) => (ret, some err)
  | (.ok numLogProcs, buf) =>
  let ret := { ret with NumLogProcs := numLogProcs }
  if ret.NumLogProcs = 0 then (ret, some errCorrupted) else
  if 3 ≤ ret.Version ∧ ret.Version < 5 then
    -- `ret.SinitFlags` has type `*uint32`, so `&ret.SinitFlags` is a `**uint32`
    match binaryRead buf .ptrPtrUint32 with
    | (.error err, _) => (ret, some err)
    | (.ok sinitFlags, buf) => parseMleFlags { ret with SinitFlags := some sinitFlags } buf
  else
    parseMleFlags ret buf

/-! ## The TXT public register space (`pkg/api/txt.go`) -/

/-- Go `const txtPublicSpace = 0xFED30000`. -/
def txtPublicSpace : Nat := 0xFED30000

structure TXTStatus where
  SenterDone : Bool
  SexitDone : Bool
  MemConfigLock : Bool
  PrivateOpen : Bool
  Locality1Open : Bool
  Locality2Open : Bool
  deriving DecidableEq, Repr

structure TXTErrorCode where
  ModuleType : Nat
  ClassCode : Nat
  MajorErrorCode : Nat
  SoftwareSource : Bool
  MinorErrorCode : Nat
  Type1Reserved : Nat
  ProcessorSoftware : Bool
  ValidInvalid : Bool
  deriving DecidableEq, Repr

structure DMAProtectedRange where
  Lock : Bool
  Size : Nat
  Top : Nat
  deriving DecidableEq, Repr

structure TXTRegisterSpace where
  Sts : TXTStatus
  TxtReset : Bool
  ErrorCode : TXTErrorCode
  ErrorCodeRaw : Nat
  AcmStatus : Nat
  FsbIf : Nat
  Vid : Nat
  Did : Nat
  Rid : Nat
  IdExt : Nat
  QpiIf : Nat
  SinitBase : Nat
  SinitSize : Nat
  MleJoin : Nat
  HeapBase : Nat
  HeapSize : Nat
  Dpr : DMAProtectedRange
  PublicKey : List Nat
  E2Sts : Nat
  deriving DecidableEq, Repr

structure ACMStatus where
  Valid : Bool
  MinorErrorCode : Nat
  ACMStarted : Bool
  MajorErrorCode : Nat
  ClassCode : Nat
  ModuleType : Nat
  deriving DecidableEq, Repr

/-- The Go zero value of `TXTStatus`. -/
def TXTStatus.zero : TXTStatus :=
  { SenterDone := false, SexitDone := false, MemConfigLock := false, PrivateOpen := false,
    Locality1Open := false, Locality2Open := false }

/-- The Go zero value of `TXTErrorCode`. -/
def TXTErrorCode.zero : TXTErrorCode :=
  { ModuleType := 0, ClassCode := 0, MajorErrorCode := 0, SoftwareSource := false,
    MinorErrorCode := 0, Type1Reserved := 0, ProcessorSoftware := false,
    ValidInvalid := false }

/-- The Go zero value of `DMAProtectedRange`. -/
def DMAProtectedRange.zero : DMAProtectedRange := { Lock := false, Size := 0, Top := 0 }

/-- The Go zero value of `ACMStatus`. -/
def ACMStatus.zero : ACMStatus :=
  { Valid := false, MinorErrorCode := 0, ACMStarted := false, MajorErrorCode := 0,
    ClassCode := 0, ModuleType := 0 }

/-- The Go zero value of `TXTRegisterSpace` (`var regSpace TXTRegisterSpace`); the
`[4]uint64` array is a list of four zeros. -/
def TXTRegisterSpace.zero : TXTRegisterSpace :=
  { Sts := TXTStatus.zero, TxtReset := false, ErrorCode := TXTErrorCode.zero,
    ErrorCodeRaw := 0, AcmStatus := 0, FsbIf := 0, Vid := 0, Did := 0, Rid := 0, IdExt := 0,
    QpiIf := 0, SinitBase := 0, SinitSize := 0, MleJoin := 0, HeapBase := 0, HeapSize := 0,
    Dpr := DMAProtectedRange.zero, PublicKey := [0, 0, 0, 0], E2Sts := 0 }

/-- The raw accessor behind `ReadPhys`: for a physical address and a width in
bits it yields the value read or the error of the failed access. The body
of `ReadPhys` lives outside `txt.go`, so the decoders take the accessor as a
parameter. -/
abbrev Accessor := Nat → Nat → Except GoError Nat

/-- The reads issued so far, oldest first, each as (address, width in bits). -/
abbrev ReadLog := List (Nat × Nat)

/-- Go `ReadPhys(addr, &uN)` for a destination of type `Uint8`, `Uint32` or
`Uint64` (`width` 8, 32, 64): one access, recorded in the log; the value
stored in the destination fits its width. -/
def ReadPhys (acc : Accessor) (addr width : Nat) (log : ReadLog) :
    Except GoError Nat × ReadLog :=
  match acc addr width with
  | .error err => (.error err, log ++ [(addr, width)])
  | .ok v => (.ok (v % 2 ^ width), log ++ [(addr, width)])

/-- Go `readTXTStatus() (TXTStatus, error)`. -/
def readTXTStatus (acc : Accessor) (log : ReadLog) : (TXTStatus × Option GoError) × ReadLog :=
  let ret := TXTStatus.zero
  match ReadPhys acc txtPublicSpace 64 log with
  | (.error err, log) => ((ret, some err), log)
  | (.ok u64, log) =>
    let ret := { ret with SenterDone := u64 &&& (1 <<< 0) != 0 }
    let ret := { ret with SexitDone := u64 &&& (1 <<< 1) != 0 }
    let ret := { ret with MemConfigLock := u64 &&& (1 <<< 6) != 0 }
    let ret := { ret with PrivateOpen := u64 &&& (1 <<< 7) != 0 }
    let ret := { ret with Locality1Open := u64 &&& (1 <<< 15) != 0 }
    let ret := { ret with Locality2Open := u64 &&& (1 <<< 16) != 0 }
    ((ret, none), log)

/-- Go `readTXTErrorCode() (TXTErrorCode, uint32, error)`. The conversions
`uint8(…)` and `uint16(…)` truncate to 8 and 16 bits. -/
def readTXTErrorCode (acc : Accessor) (log : ReadLog) :
    (TXTErrorCode × Nat × Option GoError) × ReadLog :=
  let ret := TXTErrorCode.zero
  match ReadPhys acc (txtPublicSpace + 0x30) 32 log with
  | (.error err, log) => ((ret, 0, some err), log)
  | (.ok u32, log) =>
    let ret := { ret with ModuleType := ((u32 >>> 0) &&& 0x7) % 2 ^ 8 }
    let ret := { ret with ClassCode := ((u32 >>> 4) &&& 0x3f) % 2 ^ 8 }
    let ret := { ret with MajorErrorCode := ((u32 >>> 10) &&& 0x1f) % 2 ^ 8 }
    let ret := { ret with SoftwareSource := (u32 >>> 15) &&& 0x1 != 0 }
    let ret := { ret with MinorErrorCode := ((u32 >>> 16) &&& 0x3ffff) % 2 ^ 16 }
    let ret := { ret with Type1Reserved := ((u32 >>> 28) &&& 0x3) % 2 ^ 8 }
    let ret := { ret with ProcessorSoftware := (u32 >>> 30) &&& 0x1 != 0 }
    let ret := { ret with ValidInvalid := (u32 >>> 31) &&& 0x1 != 0 }
    ((ret, u32 % 2 ^ 32, none), log)

/-- Go `readDMAProtectedRange() (DMAProtectedRange, error)`. -/
def readDMAProtectedRange (acc : Accessor) (log : ReadLog) :
    (DMAProtectedRange × Option GoError) × ReadLog :=
  let ret := DMAProtectedRange.zero
  match ReadPhys acc (txtPublicSpace + 0x330) 32 log with
  | (.error err, log) => ((ret, some err), log)
  | (.ok u32, log) =>
    let ret := { ret with Lock := u32 &&& 1 != 0 }
    let ret := { ret with Size := ((u32 >>> 4) &&& 0xff) % 2 ^ 8 }
    let ret := { ret with Top := ((u32 >>> 20) &&& 0xfff) % 2 ^ 16 }
    ((ret, none), log)

/-- Go `ReadACMStatus() (ACMStatus, error)`. -/
def ReadACMStatus (acc : Accessor) (log : ReadLog) : (ACMStatus × Option GoError) × ReadLog :=
  let ret := ACMStatus.zero
  match ReadPhys acc (txtPublicSpace + 0x328) 64 log with
  | (.error err, log) => ((ret, some err), log)
  | (.ok u64, log) =>
    let ret := { ret with ModuleType := (u64 &&& 0xF) % 2 ^ 8 }
    let ret := { ret with ClassCode := ((u64 >>> 4) &&& 0x3f) % 2 ^ 8 }
    let ret := { ret with MajorErrorCode := ((u64 >>> 10) &&& 0x1f) % 2 ^ 8 }
    let ret := { ret with ACMStarted := (u64 >>> 15) &&& 1 == 1 }
    let ret := { ret with MinorErrorCode := ((u64 >>> 16) &&& 0xfff) % 2 ^ 16 }
    let ret := { ret with Valid := (u64 >>> 31) &&& 1 == 1 }
    ((ret, none), log)

/-- The `TXT.PUBLIC.KEY` loop of `ReadTXTRegs`,
`for i := 0; i < 4; i++ { … }`, entered at index `i` with `n = 4 - i`
iterations to go. A failed read returns from `ReadTXTRegs` at once. -/
def readPublicKey (acc : Accessor) :
    Nat → Nat → TXTRegisterSpace → ReadLog → (TXTRegisterSpace × Option GoError) × ReadLog
  | 0, _, regSpace, log => ((regSpace, none), log)
  | n + 1, i, regSpace, log =>
    match ReadPhys acc (txtPublicSpace + 0x400 + i * 8) 64 log with
    | (.error err, log) => ((regSpace, some err), log)
    | (.ok u64, log) =>
      readPublicKey acc n (i + 1)
        { regSpace with PublicKey := regSpace.PublicKey.set i u64 } log

/-- Go `ReadTXTRegs() (TXTRegisterSpace, error)`. Every failed read leaves
through `return regSpace, err` with the record as filled so far. -/
def ReadTXTRegs (acc : Accessor) (log : ReadLog) :
    (TXTRegisterSpace × Option GoError) × ReadLog :=
  let regSpace := TXTRegisterSpace.zero
  match readTXTStatus acc log with
  | ((sts, some err), log) => (({ regSpace with Sts := sts }, some err), log)
  | ((sts, none), log) =>
  let regSpace := { regSpace with Sts := sts }
  match readTXTErrorCode acc log with
  | ((errorCode, raw, some err), log) =>
    (({ regSpace with ErrorCode := errorCode, ErrorCodeRaw := raw }, some err), log)
  | ((errorCode, raw, none), log) =>
  let regSpace := { regSpace with ErrorCode := errorCode, ErrorCodeRaw := raw }
  match readDMAProtectedRange acc log with
  | ((dpr, some err), log) => (({ regSpace with Dpr := dpr }, some err), log)
  | ((dpr, none), log) =>
  let regSpace := { regSpace with Dpr := dpr }
  -- TXT.ESTS (0x8)
  match ReadPhys acc (txtPublicSpace + 0x8) 8 log with
  | (.error err, log) => ((regSpace, some err), log)
  | (.ok u8, log) =>
  let regSpace := { regSpace with TxtReset := u8 &&& 1 != 0 }
  -- TXT.ACMSTATUS (0xa0)
  match ReadPhys acc (txtPublicSpace + 0xa0) 64 log with
  | (.error err, log) => ((regSpace, some err), log)
  | (.ok u64, log) =>
  let regSpace := { regSpace with AcmStatus := u64 }
  -- TXT.VER.FSBIF
  match ReadPhys acc (txtPublicSpace + 0x100) 32 log with
  | (.error err, log) => ((regSpace, some err), log)
  | (.ok u32, log) =>
  let regSpace := { regSpace with FsbIf := u32 }
  -- TXT.DIDVID
  match ReadPhys acc (txtPublicSpace + 0x110) 64 log with
  | (.error err, log) => ((regSpace, some err), log)
  | (.ok u64, log) =>
  let regSpace := { regSpace with Vid := ((u64 >>> 0) &&& 0xffff) % 2 ^ 16 }
  let regSpace := { regSpace with Did := ((u64 >>> 16) &&& 0xffff) % 2 ^ 16 }
  let regSpace := { regSpace with Rid := ((u64 >>> 32) &&& 0xffff) % 2 ^ 16 }
  let regSpace := { regSpace with IdExt := ((u64 >>> 48) &&& 0xffff) % 2 ^ 16 }
  -- TXT.VER.QPIIF
  match ReadPhys acc (txtPublicSpace + 0x200) 32 log with
  | (.error err, log) => ((regSpace, some err), log)
  | (.ok u32, log) =>
  let regSpace := { regSpace with QpiIf := u32 }
  -- TXT.SINIT.BASE
  match ReadPhys acc (txtPublicSpace + 0x270) 32 log with
  | (.error err, log) => ((regSpace, some err), log)
  | (.ok u32, log) =>
  let regSpace := { regSpace with SinitBase := u32 }
  -- TXT.SINIT.SIZE
  match ReadPhys acc (txtPublicSpace + 0x278) 32 log with
  | (.error err, log) => ((regSpace, some err), log)
  | (.ok u32, log) =>
  let regSpace := { regSpace with SinitSize := u32 }
  -- TXT.MLE.JOIN
  match ReadPhys acc (txtPublicSpace + 0x290) 32 log with
  | (.error err, log) => ((regSpace, some err), log)
  | (.ok u32, log) =>
  let regSpace := { regSpace with MleJoin := u32 }
  -- TXT.HEAP.BASE
  match ReadPhys acc (txtPublicSpace + 0x300) 32 log with
  | (.error err, log) => ((regSpace, some err), log)
  | (.ok u32, log) =>
  let regSpace := { regSpace with HeapBase := u32 }
  -- TXT.HEAP.SIZE
  match ReadPhys acc (txtPublicSpace + 0x308) 32 log with
  | (.error err, log) => ((regSpace, some err), log)
  | (.ok u32, log) =>
  let regSpace := { regSpace with HeapSize := u32 }
  -- TXT.PUBLIC.KEY
  match readPublicKey acc 4 0 regSpace log with
  | ((regSpace, some err), log) => ((regSpace, some err), log)
  | ((regSpace, none), log) =>
  -- TXT.E2STS
  match ReadPhys acc (txtPublicSpace + 0x8f0) 64 log with
  | (.error err, log) => ((regSpace, some err), log)
  | (.ok u64, log) =>
  let regSpace := { regSpace with E2Sts := u64 }
  ((regSpace, none), log)

/-! ## Reading fields at the cursor -/

/-- Bytes `off, …, off + n - 1` of a buffer (fewer when the buffer ends earlier). -/
def fieldBytes (heap : List Byte) (off n : Nat) : List Byte := (heap.drop off).take n

/-- The error of an `io.ReadFull` that finds fewer bytes than it needs. -/
def truncationError (heap : List Byte) (i : Nat) : GoError :=
  if heap.length - i = 0 then .EOF else .ErrUnexpectedEOF

/-! ## The header fields at their positions -/

/-- The `Version` field: the 32-bit word at bytes 8–11. -/
def hdrVersion (heap : List Byte) : Nat := LittleEndianUint32 (fieldBytes heap 8 4)

/-- The `BiosSinitSize` field: the 32-bit word at bytes 12–15. -/
def hdrBiosSinitSize (heap : List Byte) : Nat := LittleEndianUint32 (fieldBytes heap 12 4)

/-- The `Reserved1` field: the 64-bit word at bytes 16–23. -/
def hdrReserved1 (heap : List Byte) : Nat := LittleEndianUint64 (fieldBytes heap 16 8)

/-- The `Reserved2` field: the 64-bit word at bytes 24–31. -/
def hdrReserved2 (heap : List Byte) : Nat := LittleEndianUint64 (fieldBytes heap 24 8)

/-- The `NumLogProcs` field: the 32-bit word at bytes 32–35. -/
def hdrNumLogProcs (heap : List Byte) : Nat := LittleEndianUint32 (fieldBytes heap 32 4)

/-- The 32-bit word that follows `NumLogProcs`, at bytes 36–39. -/
def hdrFlagsWord (heap : List Byte) : Nat := LittleEndianUint32 (fieldBytes heap 36 4)

/-- The zero record with the first `k` base fields taken from the buffer. -/
def headerPrefix (heap : List Byte) (k : Nat) : TXTBiosData :=
  { Version := if 1 ≤ k then hdrVersion heap else 0,
    BiosSinitSize := if 2 ≤ k then hdrBiosSinitSize heap else 0,
    Reserved1 := if 3 ≤ k then hdrReserved1 heap else 0,
    Reserved2 := if 4 ≤ k then hdrReserved2 heap else 0,
    NumLogProcs := if 5 ≤ k then hdrNumLogProcs heap else 0,
    SinitFlags := none,
    MleFlags := none }

/-- The MLE flags as the specification reads them off the flags word `w`. -/
def mleFlagsOf (w : Nat) : TXTBiosMLEFlags :=
  { SupportsACPIPPI := w.testBit 0,
    IsLegacyState := false,
    IsServerState := decide (w &&& 6 = 4),
    IsClientState := decide (w &&& 6 = 2) }

/-- The error `binary.Read` reports for a destination of type `**uint32`. -/
def errInvalidType : GoError := .errorString "binary.Read: invalid type **uint32"

/-- The outcome of `ParseBIOSDataRegion` as a decision tree over the buffer
length and the header fields. -/
def parseOutcome (heap : List Byte) : TXTBiosData × Option GoError :=
  if heap.length < 8 then (headerPrefix heap 0, some (truncationError heap 0))
  else if heap.length < 12 then (headerPrefix heap 0, some (truncationError heap 8))
  else if hdrVersion heap < 2 then (headerPrefix heap 1, some errVersion)
  else if heap.length < 16 then (headerPrefix heap 1, some (truncationError heap 12))
  else if hdrBiosSinitSize heap < 8 then (headerPrefix heap 2, some errTooSmall)
  else if heap.length < 24 then (headerPrefix heap 2, some (truncationError heap 16))
  else if heap.length < 32 then (headerPrefix heap 3, some (truncationError heap 24))
  else if heap.length < 36 then (headerPrefix heap 4, some (truncationError heap 32))
  else if hdrNumLogProcs heap = 0 then (headerPrefix heap 5, some errCorrupted)
  else if 3 ≤ hdrVersion heap ∧ hdrVersion heap < 5 then
    (headerPrefix heap 5, some errInvalidType)
  else if hdrVersion heap < 5 then (headerPrefix heap 5, none)
  else if heap.length < 40 then (headerPrefix heap 5, some (truncationError heap 36))
  else ({ headerPrefix heap 5 with MleFlags := some (mleFlagsOf (hdrFlagsWord heap)) }, none)

/-- The number of base fields `ParseBIOSDataRegion` has stored when it stops
at or before the check of `NumLogProcs`. -/
def fieldsDecoded (heap : List Byte) : Nat :=
  if heap.length < 12 then 0
  else if hdrVersion heap < 2 ∨ heap.length < 16 then 1
  else if hdrBiosSinitSize heap < 8 ∨ heap.length < 24 then 2
  else if heap.length < 32 then 3
  else if heap.length < 36 then 4
  else 5

/-! ## Sample buffers -/

/-- Size prefix 0, Version 3, BiosSinitSize 8, NumLogProcs 1, then the word 7. -/
def bufVersion3 : List Byte :=
  [0, 0, 0, 0, 0, 0, 0, 0, 3, 0, 0, 0, 8, 0, 0, 0, 0, 0, 0, 0, 0, 0, 0, 0,
   0, 0, 0, 0, 0, 0, 0, 0, 1, 0, 0, 0, 7, 0, 0, 0]

/-- Twelve bytes: size prefix 0 and Version 1. -/
def bufVersion1 : List Byte := [0, 0, 0, 0, 0, 0, 0, 0, 1, 0, 0, 0]

/-- Sixteen bytes: size prefix 0, Version 2, BiosSinitSize 4. -/
def bufSize4Short : List Byte := [0, 0, 0, 0, 0, 0, 0, 0, 2, 0, 0, 0, 4, 0, 0, 0]

/-- Twenty bytes: size prefix 0, Version 2, BiosSinitSize 8, half of Reserved1. -/
def bufTwentyBytes : List Byte :=
  [0, 0, 0, 0, 0, 0, 0, 0, 2, 0, 0, 0, 8, 0, 0, 0, 0, 0, 0, 0]

/-- Forty bytes: Version 5, BiosSinitSize 4, NumLogProcs 1, a trailing word. -/
def bufSize4Long : List Byte :=
  [0, 0, 0, 0, 0, 0, 0, 0, 5, 0, 0, 0, 4, 0, 0, 0, 0, 0, 0, 0, 0, 0, 0, 0,
   0, 0, 0, 0, 0, 0, 0, 0, 1, 0, 0, 0, 2, 0, 0, 0]

/-- Forty bytes: Version 7, BiosSinitSize 8, NumLogProcs 0, a trailing word. -/
def bufNoProcs : List Byte :=
  [0, 0, 0, 0, 0, 0, 0, 0, 7, 0, 0, 0, 8, 0, 0, 0, 0, 0, 0, 0, 0, 0, 0, 0,
   0, 0, 0, 0, 0, 0, 0, 0, 0, 0, 0, 0, 2, 0, 0, 0]

/-- Thirty-six bytes: Version 2, BiosSinitSize 8, NumLogProcs 1, nothing after. -/
def bufVersion2 : List Byte :=
  [0, 0, 0, 0, 0, 0, 0, 0, 2, 0, 0, 0, 8, 0, 0, 0, 0, 0, 0, 0, 0, 0, 0, 0,
   0, 0, 0, 0, 0, 0, 0, 0, 1, 0, 0, 0]

/-- Forty bytes: Version 5, BiosSinitSize 8, NumLogProcs 1, MLE flags word `0b010`. -/
def bufVersion5 : List Byte :=
  [0, 0, 0, 0, 0, 0, 0, 0, 5, 0, 0, 0, 8, 0, 0, 0, 0, 0, 0, 0, 0, 0, 0, 0,
   0, 0, 0, 0, 0, 0, 0, 0, 1, 0, 0, 0, 2, 0, 0, 0]

/-! ## The register-space decoder: the reads in program order -/

/-- One read of `ReadTXTRegs`: the address, the width of the destination, and
the assignments made from the value read. -/
structure RegStep where
  addr : Nat
  width : Nat
  store : Nat → TXTRegisterSpace → TXTRegisterSpace

/-- What `readTXTStatus` decodes from the status word `v`. -/
def statusOf (v : Nat) : TXTStatus := (readTXTStatus (fun _ _ => .ok v) []).1.1

/-- What `readTXTErrorCode` decodes from the error-code word `v`. -/
def errorCodeOf (v : Nat) : TXTErrorCode := (readTXTErrorCode (fun _ _ => .ok v) []).1.1

/-- What `readDMAProtectedRange` decodes from the DPR word `v`. -/
def dprOf (v : Nat) : DMAProtectedRange := (readDMAProtectedRange (fun _ _ => .ok v) []).1.1

/-- The eighteen reads of `ReadTXTRegs` in program order, each with the
fields it fills: TXT.STS, TXT.ERRORCODE, TXT.DPR, TXT.ESTS, TXT.ACMSTATUS,
TXT.VER.FSBIF, TXT.DIDVID, TXT.VER.QPIIF, TXT.SINIT.BASE, TXT.SINIT.SIZE,
TXT.MLE.JOIN, TXT.HEAP.BASE, TXT.HEAP.SIZE, the four words of TXT.PUBLIC.KEY,
TXT.E2STS. -/
def txtRegSteps : List RegStep :=
  [ ⟨txtPublicSpace + 0x0, 64, fun v r => { r with Sts := statusOf v }⟩,
    ⟨txtPublicSpace + 0x30, 32, fun v r =>
      { r with ErrorCode := errorCodeOf v, ErrorCodeRaw := v }⟩,
    ⟨txtPublicSpace + 0x330, 32, fun v r => { r with Dpr := dprOf v }⟩,
    ⟨txtPublicSpace + 0x8, 8, fun v r => { r with TxtReset := v &&& 1 != 0 }⟩,
    ⟨txtPublicSpace + 0xa0, 64, fun v r => { r with AcmStatus := v }⟩,
    ⟨txtPublicSpace + 0x100, 32, fun v r => { r with FsbIf := v }⟩,
    ⟨txtPublicSpace + 0x110, 64, fun v r =>
      { r with Vid := ((v >>> 0) &&& 0xffff) % 2 ^ 16, Did := ((v >>> 16) &&& 0xffff) % 2 ^ 16,
               Rid := ((v >>> 32) &&& 0xffff) % 2 ^ 16,
               IdExt := ((v >>> 48) &&& 0xffff) % 2 ^ 16 }⟩,
    ⟨txtPublicSpace + 0x200, 32, fun v r => { r with QpiIf := v }⟩,
    ⟨txtPublicSpace + 0x270, 32, fun v r => { r with SinitBase := v }⟩,
    ⟨txtPublicSpace + 0x278, 32, fun v r => { r with SinitSize := v }⟩,
    ⟨txtPublicSpace + 0x290, 32, fun v r => { r with MleJoin := v }⟩,
    ⟨txtPublicSpace + 0x300, 32, fun v r => { r with HeapBase := v }⟩,
    ⟨txtPublicSpace + 0x308, 32, fun v r => { r with HeapSize := v }⟩,
    ⟨txtPublicSpace + 0x400, 64, fun v r => { r with PublicKey := r.PublicKey.set 0 v }⟩,
    ⟨txtPublicSpace + 0x408, 64, fun v r => { r with PublicKey := r.PublicKey.set 1 v }⟩,
    ⟨txtPublicSpace + 0x410, 64, fun v r => { r with PublicKey := r.PublicKey.set 2 v }⟩,
    ⟨txtPublicSpace + 0x418, 64, fun v r => { r with PublicKey := r.PublicKey.set 3 v }⟩,
    ⟨txtPublicSpace + 0x8f0, 64, fun v r => { r with E2Sts := v }⟩ ]

/-- The (address, width) pairs of `txtRegSteps`, in program order. -/
def txtRegReads : ReadLog := txtRegSteps.map fun st => (st.addr, st.width)

/-- Whether the accessor answers the read `(address, width)` with a value. -/
def readSucceeds (acc : Accessor) (rd : Nat × Nat) : Prop := ∃ v, acc rd.1 rd.2 = .ok v

/-- The record obtained by making the assignments of the steps one after the
other for as long as the reads succeed, stopping at the first failed read. -/
def applyReads (acc : Accessor) : List RegStep → TXTRegisterSpace → TXTRegisterSpace
  | [], regs => regs
  | st :: rest, regs =>
    match acc st.addr st.width with
    | .error _ => regs
    | .ok v => applyReads acc rest (st.store (v % 2 ^ st.width) regs)

/-- The error of the first read in the list that fails, if any. -/
def firstFailure (acc : Accessor) : List (Nat × Nat) → Option GoError
  | [] => none
  | rd :: rest =>
    match acc rd.1 rd.2 with
    | .error err => some err
    | .ok _ => firstFailure acc rest

/-- The reads issued when the list is worked through in order and abandoned
after the first failure. -/
def readsPerformed (acc : Accessor) : List (Nat × Nat) → List (Nat × Nat)
  | [] => []
  | rd :: rest =>
    match acc rd.1 rd.2 with
    | .error _ => [rd]
    | .ok _ => rd :: readsPerformed acc rest

/-! ## Sample accessor -/

/-- An accessor whose status word reads 1 and whose read of the error code at
`+0x30` fails; every other read yields 0. -/
def accErrorCodeFails : Accessor := fun addr _ =>
  if addr = txtPublicSpace + 0x30 then .error (.errorString "read fault")
  else if addr = txtPublicSpace then .ok 1
  else .ok 0

/-! ## Model-specific registers (`pkg/api/msr.go`) -/

/-- The hardware behind `gomsr.ReadMSR`: what the read number `t` of register
`msr` on CPU `cpu` yields, a value or the error of the access. Two reads of
the same register may differ. -/
abbrev MSRDevice := Nat → Nat → Nat → Except GoError Nat

/-- Go `gomsr.ReadMSR(cpu, msr) (uint64, error)`, issued as read number `t`;
the count of reads issued goes up by one. -/
def ReadMSR (dev : MSRDevice) (cpu msr t : Nat) : Except GoError Nat × Nat :=
  match dev t cpu msr with
  | .error err => (.error err, t + 1)
  | .ok v => (.ok (v % 2 ^ 64), t + 1)

/-- Go `err.Error()`: the text of an error, as the verb `%s` prints it. -/
def GoError.Error : GoError → String
  | .EOF => "EOF"
  | .ErrUnexpectedEOF => "unexpected EOF"
  | .errorString s => s

/-- Go `HasSMRR() (bool, error)`. -/
def HasSMRR (dev : MSRDevice) (t : Nat) : (Bool × Option GoError) × Nat :=
  match ReadMSR dev 0 0xfe t with
  | (.error err, t) =>
    ((false, some (.errorString ("Cannot access MSR IA32_MTRRCAP: " ++ err.Error))), t)
  | (.ok mtrrcap, t) => (((mtrrcap >>> 11) &&& 1 != 0, none), t)

/-- Go `IA32FeatureControlIsLocked() (bool, error)`. -/
def IA32FeatureControlIsLocked (dev : MSRDevice) (t : Nat) : (Bool × Option GoError) × Nat :=
  match ReadMSR dev 0 0x3a t with
  | (.error err, t) =>
    ((false, some (.errorString ("Cannot access MSR IA32_FEATURE_CONTROL: " ++ err.Error))), t)
  | (.ok feat_ctrl, t) => ((feat_ctrl &&& 1 != 0, none), t)

/-- Go `AllowsVMXInSMX() (bool, error)`, with
`var mask uint64 = (1 << 1) & (1 << 5) & (1 << 6)`. -/
def AllowsVMXInSMX (dev : MSRDevice) (t : Nat) : (Bool × Option GoError) × Nat :=
  match ReadMSR dev 0 0x3a t with
  | (.error err, t) =>
    ((false, some (.errorString ("Cannot access MSR IA32_FEATURE_CONTROL: " ++ err.Error))), t)
  | (.ok feat_ctrl, t) =>
    let mask := ((1 <<< 1) &&& (1 <<< 5) &&& (1 <<< 6)) % 2 ^ 64
    (((mask &&& feat_ctrl) == mask, none), t)

/-- Go `TXTLeavesAreEnabled() (bool, error)`. -/
def TXTLeavesAreEnabled (dev : MSRDevice) (t : Nat) : (Bool × Option GoError) × Nat :=
  match ReadMSR dev 0 0x3a t with
  | (.error err, t) =>
    ((false, some (.errorString ("Cannot access MSR IA32_FEATURE_CONTROL: " ++ err.Error))), t)
  | (.ok feat_ctrl, t) =>
    let txt_bits := (feat_ctrl >>> 8) &&& 0x1ff
    (((txt_bits &&& 0xff == 0xff) || (txt_bits &&& 0x100 == 0x100), none), t)

/-! ## The CPU tests (`pkg/test/cpu.go`) -/

/-- Go `getTxtRegisters() (*api.TXTRegisterSpace, error)`. The package-level
variable `txtRegisterValues` (initially `nil`) is passed in and handed back;
`acc` is the hardware as it stands at the time of the call. -/
def getTxtRegisters (txtRegisterValues : Option TXTRegisterSpace) (acc : Accessor)
    (log : ReadLog) :
    (Option TXTRegisterSpace × Option GoError) × Option TXTRegisterSpace × ReadLog :=
  match txtRegisterValues with
  | none =>
    match ReadTXTRegs acc log with
    | ((_, some err), log) => ((none, some err), none, log)
    | ((regs, none), log) => ((some regs, none), some regs, log)
  | some regs => ((some regs, none), some regs, log)

/-- Successive calls of `getTxtRegisters`, one per accessor of the list, each
call facing the hardware given by its accessor. The results are listed in
call order. -/
def getTxtRegistersCalls :
    Option TXTRegisterSpace → List Accessor → ReadLog →
      List (Option TXTRegisterSpace × Option GoError) × Option TXTRegisterSpace × ReadLog
  | cache, [], log => ([], cache, log)
  | cache, acc :: rest, log =>
    match getTxtRegisters cache acc log with
    | (res, cache, log) =>
      match getTxtRegistersCalls cache rest log with
      | (results, cache, log) => (res :: results, cache, log)

/-- Go `Test08Ia32FeatureCtrl() (bool, error)`. -/
def Test08Ia32FeatureCtrl (dev : MSRDevice) (t : Nat) : (Bool × Option GoError) × Nat :=
  match AllowsVMXInSMX dev t with
  | ((vmxInSmx, err), t) =>
    if err.isSome || !vmxInSmx then ((vmxInSmx, err), t)
    else
      match IA32FeatureControlIsLocked dev t with
      | ((_, some err), t) => ((false, some err), t)
      | ((locked, none), t) => ((locked, none), t)

/-! ## Bit positions and re-encoding of the register words -/

/-- The `n`-bit field of `w` whose lowest bit is bit `lo`. -/
def bitField (w lo n : Nat) : Nat := w / 2 ^ lo % 2 ^ n

/-- What `ReadACMStatus` decodes from the word `v`. -/
def acmStatusOf (v : Nat) : ACMStatus := (ReadACMStatus (fun _ _ => .ok v) []).1.1

/-- The value of a byte sequence read as a little-endian number. -/
def leValue : List Byte → Nat
  | [] => 0
  | b :: bs => b.val + 256 * leValue bs

/-- Every bit of `w` at a position not listed in `doc` is zero. -/
def zeroOutside (doc : List Nat) (w : Nat) : Prop := ∀ i, i ∉ doc → w.testBit i = false

/-- Documented bits of TXT.STS: 0, 1, 6, 7, 15, 16. -/
def statusBits : List Nat := [0, 1, 6, 7, 15, 16]

/-- Documented bits of TXT.ERRORCODE: 0–2 and 4–31. -/
def errorCodeBits : List Nat := List.range' 0 3 ++ List.range' 4 28

/-- Documented bits of TXT.DPR: 0, 4–11 and 20–31. -/
def dprBits : List Nat := 0 :: (List.range' 4 8 ++ List.range' 20 12)

/-- Documented bits of the ACM status word: 0–27 and 31. -/
def acmStatusBits : List Nat := List.range' 0 28 ++ [31]

/-- The status flags put back at bits 0, 1, 6, 7, 15, 16 and OR-ed. -/
def encodeTXTStatus (s : TXTStatus) : Nat :=
  s.SenterDone.toNat <<< 0 ||| s.SexitDone.toNat <<< 1 ||| s.MemConfigLock.toNat <<< 6 |||
    s.PrivateOpen.toNat <<< 7 ||| s.Locality1Open.toNat <<< 15 |||
    s.Locality2Open.toNat <<< 16

/-- The error-code fields put back at bits 0, 4, 10, 15, 16, 28, 30, 31 and
OR-ed. -/
def encodeTXTErrorCode (e : TXTErrorCode) : Nat :=
  e.ModuleType <<< 0 ||| e.ClassCode <<< 4 ||| e.MajorErrorCode <<< 10 |||
    e.SoftwareSource.toNat <<< 15 ||| e.MinorErrorCode <<< 16 ||| e.Type1Reserved <<< 28 |||
    e.ProcessorSoftware.toNat <<< 30 ||| e.ValidInvalid.toNat <<< 31

/-- The DPR fields put back at bits 0, 4, 20 and OR-ed. -/
def encodeDMAProtectedRange (d : DMAProtectedRange) : Nat :=
  d.Lock.toNat <<< 0 ||| d.Size <<< 4 ||| d.Top <<< 20

/-- The ACM status fields put back at bits 0, 4, 10, 15, 16, 31 and OR-ed. -/
def encodeACMStatus (a : ACMStatus) : Nat :=
  a.ModuleType <<< 0 ||| a.ClassCode <<< 4 ||| a.MajorErrorCode <<< 10 |||
    a.ACMStarted.toNat <<< 15 ||| a.MinorErrorCode <<< 16 ||| a.Valid.toNat <<< 31

/-! ## Successful parses -/

/-- The record of a successful parse: the five base fields, and the MLE flags
when Version is at least 5. -/
def successRecord (heap : List Byte) : TXTBiosData :=
  if 5 ≤ hdrVersion heap then
    { headerPrefix heap 5 with MleFlags := some (mleFlagsOf (hdrFlagsWord heap)) }
  else headerPrefix heap 5

/-- The buffers on which `ParseBIOSDataRegion` succeeds. -/
def parsesOk (heap : List Byte) : Prop :=
  36 ≤ heap.length ∧ 8 ≤ hdrBiosSinitSize heap ∧ hdrNumLogProcs heap ≠ 0 ∧
    (hdrVersion heap = 2 ∨ (5 ≤ hdrVersion heap ∧ 40 ≤ heap.length))

/-! ## Further sample inputs -/

/-- Forty bytes: an arbitrary size prefix, Version 6, BiosSinitSize 8, non-zero
reserved words, NumLogProcs 258, flags word 4. -/
def bufVersion6Tail : List Byte :=
  [9, 9, 9, 9, 9, 9, 9, 9, 6, 0, 0, 0, 8, 0, 0, 0, 1, 2, 3, 4, 5, 6, 7, 8,
   8, 7, 6, 5, 4, 3, 2, 1, 2, 1, 0, 0, 4, 0, 0, 0]

/-- An accessor that answers every read with the same value. -/
def accConst (v : Nat) : Accessor := fun _ _ => .ok v

/-- An accessor that answers every read with a value derived from the
address, so that the snapshot differs from the one of `accConst 0`. -/
def accAddr : Accessor := fun addr _ => .ok (addr + 1)

/-- A device whose every read yields `v`. -/
def devConst (v : Nat) : MSRDevice := fun _ _ _ => .ok v

/-- A device whose every read fails with the given text. -/
def devFails (text : String) : MSRDevice := fun _ _ _ => .error (.errorString text)

/-- A device whose first read yields `v1` and whose later reads yield `v2`. -/
def devTwo (v1 v2 : Nat) : MSRDevice := fun t _ _ => if t = 0 then .ok v1 else .ok v2

/-! ## The contract of a feature query -/

/-- What a feature query `q` on register `msr` promises: an error exactly
when the read fails; then the result is `false` with the message
"Cannot access MSR `name`: " followed by the text of the read error; and on a
successful read of `v` no error and the boolean `f v`. -/
def queryContract (q : MSRDevice → Nat → (Bool × Option GoError) × Nat) (msr : Nat)
    (name : String) (f : Nat → Bool) : Prop :=
  ∀ (dev : MSRDevice) (t : Nat),
    ((q dev t).1.2 ≠ none ↔ ∃ e, dev t 0 msr = .error e) ∧
    (∀ e, dev t 0 msr = .error e →
      q dev t =
        ((false, some (.errorString ("Cannot access MSR " ++ name ++ ": " ++ e.Error))),
          t + 1)) ∧
    (∀ v, dev t 0 msr = .ok v → q dev t = ((f v, none), t + 1))

/-! ## Lemmas on `binary.Read` and the little-endian decoders -/

theorem binaryRead_u32 (s : List Byte) (i : Nat) :
    binaryRead ⟨s, i⟩ .ptrUint32 =
      if i + 4 ≤ s.length then (.ok (LittleEndianUint32 (fieldBytes s i 4)), ⟨s, i + 4⟩)
      else (.error (truncationError s i), ⟨s, if s.length - i = 0 then i else s.length⟩) := by
  unfold binaryRead ReadFull truncationError fieldBytes
  simp only [intDataSize]
  by_cases h : i + 4 ≤ s.length
  · have h2 : 4 ≤ s.length - i := by omega
    simp [h, h2]
  · have h2 : ¬ 4 ≤ s.length - i := by omega
    simp only [h, h2]
    by_cases h3 : s.length - i = 0 <;> simp [h3]

theorem binaryRead_u64 (s : List Byte) (i : Nat) :
    binaryRead ⟨s, i⟩ .ptrUint64 =
      if i + 8 ≤ s.length then (.ok (LittleEndianUint64 (fieldBytes s i 8)), ⟨s, i + 8⟩)
      else (.error (truncationError s i), ⟨s, if s.length - i = 0 then i else s.length⟩) := by
  unfold binaryRead ReadFull truncationError fieldBytes
  simp only [intDataSize]
  by_cases h : i + 8 ≤ s.length
  · have h2 : 8 ≤ s.length - i := by omega
    simp [h, h2]
  · have h2 : ¬ 8 ≤ s.length - i := by omega
    simp only [h, h2]
    by_cases h3 : s.length - i = 0 <;> simp [h3]

theorem binaryRead_ptrPtr (r : Reader) :
    binaryRead r .ptrPtrUint32 =
      (.error (.errorString "binary.Read: invalid type **uint32"), r) := by
  simp [binaryRead, intDataSize, DataType.String]

theorem or_shiftLeft_eq_add (x y k : Nat) (h : x < 2 ^ k) :
    x ||| y <<< k = x + 2 ^ k * y := by
  rw [Nat.or_comm, Nat.shiftLeft_eq, Nat.mul_comm, ← Nat.mul_add_lt_is_or h, Nat.add_comm]

/-- The value `LittleEndianUint32` gives for four bytes is their base-256 value, least
significant byte first. -/
theorem LittleEndianUint32_eq (b0 b1 b2 b3 : Byte) :
    LittleEndianUint32 [b0, b1, b2, b3] =
      b0.val + 2 ^ 8 * b1.val + 2 ^ 16 * b2.val + 2 ^ 24 * b3.val := by
  have h0 := b0.isLt
  have h1 := b1.isLt
  have h2 := b2.isLt
  have h3 := b3.isLt
  simp only [LittleEndianUint32, List.getD_cons_zero, List.getD_cons_succ]
  rw [or_shiftLeft_eq_add _ _ 8 (by omega), or_shiftLeft_eq_add _ _ 16 (by omega),
    or_shiftLeft_eq_add _ _ 24 (by omega)]

/-- The value `LittleEndianUint64` gives for eight bytes is their base-256 value, least
significant byte first. -/
theorem LittleEndianUint64_eq (b0 b1 b2 b3 b4 b5 b6 b7 : Byte) :
    LittleEndianUint64 [b0, b1, b2, b3, b4, b5, b6, b7] =
      b0.val + 2 ^ 8 * b1.val + 2 ^ 16 * b2.val + 2 ^ 24 * b3.val + 2 ^ 32 * b4.val +
        2 ^ 40 * b5.val + 2 ^ 48 * b6.val + 2 ^ 56 * b7.val := by
  have h0 := b0.isLt
  have h1 := b1.isLt
  have h2 := b2.isLt
  have h3 := b3.isLt
  have h4 := b4.isLt
  have h5 := b5.isLt
  have h6 := b6.isLt
  have h7 := b7.isLt
  simp only [LittleEndianUint64, List.getD_cons_zero, List.getD_cons_succ]
  rw [or_shiftLeft_eq_add _ _ 8 (by omega), or_shiftLeft_eq_add _ _ 16 (by omega),
    or_shiftLeft_eq_add _ _ 24 (by omega), or_shiftLeft_eq_add _ _ 32 (by omega),
    or_shiftLeft_eq_add _ _ 40 (by omega), or_shiftLeft_eq_add _ _ 48 (by omega),
    or_shiftLeft_eq_add _ _ 56 (by omega)]

/-! ## The parser as a decision tree -/

theorem and_one_ne_zero_eq_testBit (w : Nat) : (w &&& 1 != 0) = w.testBit 0 := by
  simp [Nat.testBit, Nat.and_comm]

theorem ParseBIOSDataRegion_eq_parseOutcome (heap : List Byte) :
    ParseBIOSDataRegion heap = parseOutcome heap := by
  unfold parseOutcome ParseBIOSDataRegion parseMleFlags
  simp only [NewReader, Nat.zero_add, headerPrefix, TXTBiosData.zero, hdrVersion,
    hdrBiosSinitSize, hdrReserved1, hdrReserved2, hdrNumLogProcs, hdrFlagsWord, mleFlagsOf,
    errInvalidType, TXTBiosMLEFlags.zero, and_one_ne_zero_eq_testBit]
  by_cases h8 : heap.length < 8
  · have : ¬ 8 ≤ heap.length := by omega
    simp [binaryRead_u64, binaryRead_u32, binaryRead_ptrPtr, h8, this]
  have h8b : 8 ≤ heap.length := by omega
  simp only [binaryRead_u64, binaryRead_u32, binaryRead_ptrPtr, h8, h8b, if_true, if_false, Nat.reduceAdd]
  by_cases h12 : heap.length < 12
  · have : ¬ 12 ≤ heap.length := by omega
    simp [binaryRead_u64, binaryRead_u32, binaryRead_ptrPtr, h12, this]
  have h12b : 12 ≤ heap.length := by omega
  simp only [binaryRead_u64, binaryRead_u32, binaryRead_ptrPtr, h12, h12b, if_true, if_false, Nat.reduceAdd]
  by_cases hv : LittleEndianUint32 (fieldBytes heap 8 4) < 2
  · simp [hv]
  simp only [hv, if_false]
  by_cases h16 : heap.length < 16
  · have : ¬ 16 ≤ heap.length := by omega
    simp [binaryRead_u64, binaryRead_u32, binaryRead_ptrPtr, h16, this]
  have h16b : 16 ≤ heap.length := by omega
  simp only [binaryRead_u64, binaryRead_u32, binaryRead_ptrPtr, h16, h16b, if_true, if_false, Nat.reduceAdd]
  by_cases hs : LittleEndianUint32 (fieldBytes heap 12 4) < 8
  · simp [hs]
  simp only [hs, if_false]
  by_cases h24 : heap.length < 24
  · have : ¬ 24 ≤ heap.length := by omega
    simp [binaryRead_u64, binaryRead_u32, binaryRead_ptrPtr, h24, this]
  have h24b : 24 ≤ heap.length := by omega
  simp only [binaryRead_u64, binaryRead_u32, binaryRead_ptrPtr, h24, h24b, if_true, if_false, Nat.reduceAdd]
  by_cases h32 : heap.length < 32
  · have : ¬ 32 ≤ heap.length := by omega
    simp [binaryRead_u64, binaryRead_u32, binaryRead_ptrPtr, h32, this]
  have h32b : 32 ≤ heap.length := by omega
  simp only [binaryRead_u64, binaryRead_u32, binaryRead_ptrPtr, h32, h32b, if_true, if_false, Nat.reduceAdd]
  by_cases h36 : heap.length < 36
  · have : ¬ 36 ≤ heap.length := by omega
    simp [binaryRead_u64, binaryRead_u32, binaryRead_ptrPtr, h36, this]
  have h36b : 36 ≤ heap.length := by omega
  simp only [binaryRead_u64, binaryRead_u32, binaryRead_ptrPtr, h36, h36b, if_true, if_false, Nat.reduceAdd]
  by_cases hn : LittleEndianUint32 (fieldBytes heap 32 4) = 0
  · simp [hn]
  simp only [hn, if_false]
  by_cases h34 : 3 ≤ LittleEndianUint32 (fieldBytes heap 8 4) ∧
      LittleEndianUint32 (fieldBytes heap 8 4) < 5
  · simp [binaryRead_ptrPtr, h34]
  simp only [h34, if_false]
  by_cases h5 : LittleEndianUint32 (fieldBytes heap 8 4) < 5
  · have : ¬ 5 ≤ LittleEndianUint32 (fieldBytes heap 8 4) := by omega
    simp [h5, this]
  have h5b : 5 ≤ LittleEndianUint32 (fieldBytes heap 8 4) := by omega
  simp only [h5, h5b, if_true, if_false]
  by_cases h40 : heap.length < 40
  · have : ¬ 40 ≤ heap.length := by omega
    simp [binaryRead_u32, h40, this]
  have h40b : 40 ≤ heap.length := by omega
  simp [binaryRead_u32, h40, h40b]
  exact ⟨rfl, rfl⟩

/-! ## The BIOS data region parser: results -/

/-- For Version 3 or 4 the read of `SinitFlags` cannot succeed: every buffer
with a valid header is rejected with the invalid-type error of `binary.Read`,
whatever follows the header. -/
theorem ParseBIOSDataRegion_version_3_4 (heap : List Byte) (hlen : 36 ≤ heap.length)
    (hv : hdrVersion heap = 3 ∨ hdrVersion heap = 4) (hs : 8 ≤ hdrBiosSinitSize heap)
    (hn : hdrNumLogProcs heap ≠ 0) :
    ParseBIOSDataRegion heap = (headerPrefix heap 5, some errInvalidType) := by
  rw [ParseBIOSDataRegion_eq_parseOutcome, parseOutcome]
  have h1 : ¬ heap.length < 8 := by omega
  have h2 : ¬ heap.length < 12 := by omega
  have h3 : ¬ heap.length < 16 := by omega
  have h4 : ¬ heap.length < 24 := by omega
  have h5 : ¬ heap.length < 32 := by omega
  have h6 : ¬ heap.length < 36 := by omega
  have h7 : ¬ hdrVersion heap < 2 := by omega
  have h8 : ¬ hdrBiosSinitSize heap < 8 := by omega
  have h9 : 3 ≤ hdrVersion heap ∧ hdrVersion heap < 5 := by omega
  simp [h1, h2, h3, h4, h5, h6, h7, h8, h9, hn]

/-- C1 (code defect): on a 40-byte buffer with a valid header, Version 3 and
the flags word 7 after `NumLogProcs`, `ParseBIOSDataRegion` does not succeed:
it returns the invalid-type error of `binary.Read` and `SinitFlags` stays
absent, because the destination `&ret.SinitFlags` is a `**uint32`. -/
theorem C1_sinitFlags_read_fails :
    40 ≤ bufVersion3.length ∧ hdrVersion bufVersion3 = 3 ∧
      8 ≤ hdrBiosSinitSize bufVersion3 ∧ hdrNumLogProcs bufVersion3 ≠ 0 ∧
      hdrFlagsWord bufVersion3 = 7 ∧
      (ParseBIOSDataRegion bufVersion3).2 = some errInvalidType ∧
      (ParseBIOSDataRegion bufVersion3).1.SinitFlags = none ∧
      (ParseBIOSDataRegion bufVersion3).1.MleFlags = none := by
  decide

/-- C2 (as stated, refuted): on the 12-byte buffer with Version 1 the parser
returns the version error together with a record whose `Version` is 1, which
is not the zero-valued record. -/
theorem C2_counterexample :
    (ParseBIOSDataRegion bufVersion1).2 = some errVersion ∧
      (ParseBIOSDataRegion bufVersion1).1.Version = 1 ∧
      (ParseBIOSDataRegion bufVersion1).1 ≠ TXTBiosData.zero := by
  decide

/-- C2 (amended): whenever `ParseBIOSDataRegion` returns an error, the record
returned with it is the zero-valued record overwritten with the base fields
decoded before the point of failure; `SinitFlags` and `MleFlags` are absent
in it, and it is the zero-valued record when the buffer has fewer than 12
bytes. -/
theorem C2_error_record_is_header_prefix (heap : List Byte)
    (herr : (ParseBIOSDataRegion heap).2 ≠ none) :
    (ParseBIOSDataRegion heap).1 = headerPrefix heap (fieldsDecoded heap) ∧
      (ParseBIOSDataRegion heap).1.SinitFlags = none ∧
      (ParseBIOSDataRegion heap).1.MleFlags = none ∧
      (heap.length < 12 → (ParseBIOSDataRegion heap).1 = TXTBiosData.zero) := by
  rw [ParseBIOSDataRegion_eq_parseOutcome] at herr ⊢
  unfold parseOutcome at herr ⊢
  unfold fieldsDecoded
  by_cases h8 : heap.length < 8
  · have h12 : heap.length < 12 := by omega
    simp [h8, h12, headerPrefix, TXTBiosData.zero]
  simp only [h8, if_false] at herr ⊢
  by_cases h12 : heap.length < 12
  · simp [h12, headerPrefix, TXTBiosData.zero]
  simp only [h12, if_false] at herr ⊢
  by_cases hv : hdrVersion heap < 2
  · simp [hv, headerPrefix]
  simp only [hv, if_false, false_or] at herr ⊢
  by_cases h16 : heap.length < 16
  · simp [h16, headerPrefix]
  simp only [h16, if_false] at herr ⊢
  by_cases hs : hdrBiosSinitSize heap < 8
  · simp [hs, headerPrefix]
  simp only [hs, if_false, false_or] at herr ⊢
  by_cases h24 : heap.length < 24
  · simp [h24, headerPrefix]
  simp only [h24, if_false] at herr ⊢
  by_cases h32 : heap.length < 32
  · simp [h32, headerPrefix]
  simp only [h32, if_false] at herr ⊢
  by_cases h36 : heap.length < 36
  · simp [h36, headerPrefix]
  simp only [h36, if_false] at herr ⊢
  by_cases hn : hdrNumLogProcs heap = 0
  · simp [hn, headerPrefix]
  simp only [hn, if_false] at herr ⊢
  by_cases h34 : 3 ≤ hdrVersion heap ∧ hdrVersion heap < 5
  · simp [h34, headerPrefix]
  simp only [h34, if_false] at herr ⊢
  by_cases h5 : hdrVersion heap < 5
  · simp [h5] at herr
  simp only [h5, if_false] at herr ⊢
  by_cases h40 : heap.length < 40
  · simp [h40, headerPrefix]
  simp [h40] at herr

theorem C2_error_record_witness :
    (ParseBIOSDataRegion bufVersion1).2 ≠ none ∧
      (ParseBIOSDataRegion bufVersion1).1 =
        headerPrefix bufVersion1 (fieldsDecoded bufVersion1) ∧
      (ParseBIOSDataRegion bufVersion1).1.SinitFlags = none ∧
      (ParseBIOSDataRegion bufVersion1).1.MleFlags = none ∧
      (bufVersion1.length < 12 → (ParseBIOSDataRegion bufVersion1).1 = TXTBiosData.zero) :=
  ⟨by decide, C2_error_record_is_header_prefix bufVersion1 (by decide)⟩

/-! ## The register-space decoder: results -/

theorem ReadTXTRegs_eq (acc : Accessor) (log : ReadLog) :
    ReadTXTRegs acc log =
      ((applyReads acc txtRegSteps TXTRegisterSpace.zero, firstFailure acc txtRegReads),
        log ++ readsPerformed acc txtRegReads) := by
  unfold ReadTXTRegs readTXTStatus readTXTErrorCode readDMAProtectedRange
  simp only [readPublicKey, ReadPhys, txtRegReads, txtRegSteps, applyReads, firstFailure,
    readsPerformed, txtPublicSpace, List.map, Nat.reduceAdd, Nat.reduceMul, statusOf,
    errorCodeOf, dprOf, readTXTStatus, readTXTErrorCode, readDMAProtectedRange]
  cases h0 : acc 4275240960 64 with
  | error e => simp [h0, TXTRegisterSpace.zero]
  | ok v0 =>
  simp only [h0]
  cases h1 : acc 4275241008 32 with
  | error e => simp [h1, TXTRegisterSpace.zero]
  | ok v1 =>
  simp only [h1]
  cases h2 : acc 4275241776 32 with
  | error e => simp [h2, TXTRegisterSpace.zero]
  | ok v2 =>
  simp only [h2]
  cases h3 : acc 4275240968 8 with
  | error e => simp [h3, TXTRegisterSpace.zero]
  | ok v3 =>
  simp only [h3]
  cases h4 : acc 4275241120 64 with
  | error e => simp [h4, TXTRegisterSpace.zero]
  | ok v4 =>
  simp only [h4]
  cases h5 : acc 4275241216 32 with
  | error e => simp [h5, TXTRegisterSpace.zero]
  | ok v5 =>
  simp only [h5]
  cases h6 : acc 4275241232 64 with
  | error e => simp [h6, TXTRegisterSpace.zero]
  | ok v6 =>
  simp only [h6]
  cases h7 : acc 4275241472 32 with
  | error e => simp [h7, TXTRegisterSpace.zero]
  | ok v7 =>
  simp only [h7]
  cases h8 : acc 4275241584 32 with
  | error e => simp [h8, TXTRegisterSpace.zero]
  | ok v8 =>
  simp only [h8]
  cases h9 : acc 4275241592 32 with
  | error e => simp [h9, TXTRegisterSpace.zero]
  | ok v9 =>
  simp only [h9]
  cases h10 : acc 4275241616 32 with
  | error e => simp [h10, TXTRegisterSpace.zero]
  | ok v10 =>
  simp only [h10]
  cases h11 : acc 4275241728 32 with
  | error e => simp [h11, TXTRegisterSpace.zero]
  | ok v11 =>
  simp only [h11]
  cases h12 : acc 4275241736 32 with
  | error e => simp [h12, TXTRegisterSpace.zero]
  | ok v12 =>
  simp only [h12]
  cases h13 : acc 4275241984 64 with
  | error e => simp [h13, TXTRegisterSpace.zero]
  | ok v13 =>
  simp only [h13]
  cases h14 : acc 4275241992 64 with
  | error e => simp [h14, TXTRegisterSpace.zero]
  | ok v14 =>
  simp only [h14]
  cases h15 : acc 4275242000 64 with
  | error e => simp [h15, TXTRegisterSpace.zero]
  | ok v15 =>
  simp only [h15]
  cases h16 : acc 4275242008 64 with
  | error e => simp [h16, TXTRegisterSpace.zero]
  | ok v16 =>
  simp only [h16]
  cases h17 : acc 4275243248 64 with
  | error e => simp [h17, TXTRegisterSpace.zero]
  | ok v17 =>
  simp only [h17]
  simp

theorem firstFailure_eq_none_iff (acc : Accessor) (rds : List (Nat × Nat)) :
    firstFailure acc rds = none ↔ ∀ rd ∈ rds, readSucceeds acc rd := by
  induction rds with
  | nil => simp [firstFailure]
  | cons rd rest ih =>
    unfold firstFailure
    cases h : acc rd.1 rd.2 with
    | error e => simp [readSucceeds, h]
    | ok v => simp [readSucceeds, h, ih]

theorem firstFailure_append (acc : Accessor) (pre post : List (Nat × Nat)) (rd : Nat × Nat)
    (e : GoError) (hpre : ∀ p ∈ pre, readSucceeds acc p) (hrd : acc rd.1 rd.2 = .error e) :
    firstFailure acc (pre ++ rd :: post) = some e := by
  induction pre with
  | nil => simp [firstFailure, hrd]
  | cons p rest ih =>
    obtain ⟨v, hv⟩ := hpre p (by simp)
    simp only [List.cons_append, firstFailure, hv]
    exact ih fun q hq => hpre q (by simp [hq])

theorem readsPerformed_append (acc : Accessor) (pre post : List (Nat × Nat)) (rd : Nat × Nat)
    (e : GoError) (hpre : ∀ p ∈ pre, readSucceeds acc p) (hrd : acc rd.1 rd.2 = .error e) :
    readsPerformed acc (pre ++ rd :: post) = pre ++ [rd] := by
  induction pre with
  | nil => simp [readsPerformed, hrd]
  | cons p rest ih =>
    obtain ⟨v, hv⟩ := hpre p (by simp)
    have h := ih fun q hq => hpre q (by simp [hq])
    simp only [List.cons_append, readsPerformed, hv]
    exact congrArg (List.cons p) h

theorem readsPerformed_of_all_ok (acc : Accessor) (rds : List (Nat × Nat))
    (hall : ∀ rd ∈ rds, readSucceeds acc rd) : readsPerformed acc rds = rds := by
  induction rds with
  | nil => rfl
  | cons p rest ih =>
    obtain ⟨v, hv⟩ := hall p (by simp)
    simp only [readsPerformed, hv]
    rw [ih fun q hq => hall q (by simp [hq])]

/-- When some read fails, the last field `E2Sts` is still zero, and the
record is untouched when the very first read fails. -/
theorem applyReads_of_failure (acc : Accessor)
    (hfail : firstFailure acc txtRegReads ≠ none) :
    (applyReads acc txtRegSteps TXTRegisterSpace.zero).E2Sts = 0 ∧
      (¬ readSucceeds acc (txtPublicSpace, 64) →
        applyReads acc txtRegSteps TXTRegisterSpace.zero = TXTRegisterSpace.zero) := by
  revert hfail
  simp only [txtRegReads, txtRegSteps, applyReads, firstFailure, readSucceeds,
    txtPublicSpace, List.map, Nat.reduceAdd]
  cases h0 : acc 4275240960 64 with
  | error e => simp [h0, TXTRegisterSpace.zero]
  | ok v0 =>
  simp only [h0]
  cases h1 : acc 4275241008 32 with
  | error e => simp [h1, TXTRegisterSpace.zero]
  | ok v1 =>
  simp only [h1]
  cases h2 : acc 4275241776 32 with
  | error e => simp [h2, TXTRegisterSpace.zero]
  | ok v2 =>
  simp only [h2]
  cases h3 : acc 4275240968 8 with
  | error e => simp [h3, TXTRegisterSpace.zero]
  | ok v3 =>
  simp only [h3]
  cases h4 : acc 4275241120 64 with
  | error e => simp [h4, TXTRegisterSpace.zero]
  | ok v4 =>
  simp only [h4]
  cases h5 : acc 4275241216 32 with
  | error e => simp [h5, TXTRegisterSpace.zero]
  | ok v5 =>
  simp only [h5]
  cases h6 : acc 4275241232 64 with
  | error e => simp [h6, TXTRegisterSpace.zero]
  | ok v6 =>
  simp only [h6]
  cases h7 : acc 4275241472 32 with
  | error e => simp [h7, TXTRegisterSpace.zero]
  | ok v7 =>
  simp only [h7]
  cases h8 : acc 4275241584 32 with
  | error e => simp [h8, TXTRegisterSpace.zero]
  | ok v8 =>
  simp only [h8]
  cases h9 : acc 4275241592 32 with
  | error e => simp [h9, TXTRegisterSpace.zero]
  | ok v9 =>
  simp only [h9]
  cases h10 : acc 4275241616 32 with
  | error e => simp [h10, TXTRegisterSpace.zero]
  | ok v10 =>
  simp only [h10]
  cases h11 : acc 4275241728 32 with
  | error e => simp [h11, TXTRegisterSpace.zero]
  | ok v11 =>
  simp only [h11]
  cases h12 : acc 4275241736 32 with
  | error e => simp [h12, TXTRegisterSpace.zero]
  | ok v12 =>
  simp only [h12]
  cases h13 : acc 4275241984 64 with
  | error e => simp [h13, TXTRegisterSpace.zero]
  | ok v13 =>
  simp only [h13]
  cases h14 : acc 4275241992 64 with
  | error e => simp [h14, TXTRegisterSpace.zero]
  | ok v14 =>
  simp only [h14]
  cases h15 : acc 4275242000 64 with
  | error e => simp [h15, TXTRegisterSpace.zero]
  | ok v15 =>
  simp only [h15]
  cases h16 : acc 4275242008 64 with
  | error e => simp [h16, TXTRegisterSpace.zero]
  | ok v16 =>
  simp only [h16]
  cases h17 : acc 4275243248 64 with
  | error e => simp [h17, TXTRegisterSpace.zero]
  | ok v17 =>
  simp only [h17]
  simp

/-- C3 (as stated, refuted): with the status read yielding 1 and the
error-code read failing, `ReadTXTRegs` returns the error together with a
record in which `Sts.SenterDone` is set from the status read, so the record
is not the zero-valued one. -/
theorem C3_counterexample :
    (ReadTXTRegs accErrorCodeFails []).1.2 = some (.errorString "read fault") ∧
      (ReadTXTRegs accErrorCodeFails []).1.1.Sts.SenterDone = true ∧
      (ReadTXTRegs accErrorCodeFails []).1.1 ≠ TXTRegisterSpace.zero := by
  decide

/-- C3 (amended): when at least one read of `ReadTXTRegs` fails, an error is
returned and the record returned with it is the zero-valued record with the
assignments of the reads that succeeded before the first failing read; the
fields of the failing read and of later reads keep their zero value (so
`E2Sts` is 0), and the record is the zero-valued record when the first read,
TXT.STS, is the one that fails. -/
theorem C3_error_record_holds_earlier_reads (acc : Accessor) (log : ReadLog)
    (hfail : ∃ rd ∈ txtRegReads, ¬ readSucceeds acc rd) :
    (ReadTXTRegs acc log).1.2 ≠ none ∧
      (ReadTXTRegs acc log).1.1 = applyReads acc txtRegSteps TXTRegisterSpace.zero ∧
      (ReadTXTRegs acc log).1.1.E2Sts = 0 ∧
      (¬ readSucceeds acc (txtPublicSpace, 64) →
        (ReadTXTRegs acc log).1.1 = TXTRegisterSpace.zero) := by
  have hne : firstFailure acc txtRegReads ≠ none := by
    intro h
    obtain ⟨rd, hmem, hrd⟩ := hfail
    exact hrd ((firstFailure_eq_none_iff acc txtRegReads).1 h rd hmem)
  rw [ReadTXTRegs_eq]
  exact ⟨hne, rfl, (applyReads_of_failure acc hne).1, (applyReads_of_failure acc hne).2⟩

theorem C3_error_record_witness :
    (∃ rd ∈ txtRegReads, ¬ readSucceeds accErrorCodeFails rd) ∧
      (ReadTXTRegs accErrorCodeFails []).1.2 ≠ none ∧
      (ReadTXTRegs accErrorCodeFails []).1.1 =
        applyReads accErrorCodeFails txtRegSteps TXTRegisterSpace.zero ∧
      (ReadTXTRegs accErrorCodeFails []).1.1.E2Sts = 0 :=
  have hfail : ∃ rd ∈ txtRegReads, ¬ readSucceeds accErrorCodeFails rd :=
    ⟨(txtPublicSpace + 0x30, 32), by decide, by
      rintro ⟨v, hv⟩
      simp [accErrorCodeFails] at hv⟩
  have h := C3_error_record_holds_earlier_reads accErrorCodeFails [] hfail
  ⟨hfail, h.1, h.2.1, h.2.2.1⟩

/-- C4: `ReadTXTRegs` issues its reads in the order TXT.STS `+0x0`,
TXT.ERRORCODE `+0x30`, TXT.DPR `+0x330`, TXT.ESTS `+0x8`, `+0xA0`, `+0x100`,
`+0x110`, `+0x200`, `+0x270`, `+0x278`, `+0x290`, `+0x300`, `+0x308`, the
public key `+0x400`, `+0x408`, `+0x410`, `+0x418`, and TXT.E2STS `+0x8F0`. It
returns an error exactly when one of these reads fails; the error is the one
of the first failing read, unchanged, and that read is the last one issued.
When all succeed, all eighteen reads are issued. -/
theorem C4_first_failing_read (acc : Accessor) (log : ReadLog) :
    txtRegReads.map (fun rd => rd.1 - txtPublicSpace) =
        [0x0, 0x30, 0x330, 0x8, 0xA0, 0x100, 0x110, 0x200, 0x270, 0x278, 0x290, 0x300, 0x308,
          0x400, 0x408, 0x410, 0x418, 0x8F0] ∧
      ((ReadTXTRegs acc log).1.2 ≠ none ↔ ∃ rd ∈ txtRegReads, ¬ readSucceeds acc rd) ∧
      (∀ (pre post : List (Nat × Nat)) (rd : Nat × Nat) (e : GoError),
        txtRegReads = pre ++ rd :: post → (∀ p ∈ pre, readSucceeds acc p) →
        acc rd.1 rd.2 = .error e →
        (ReadTXTRegs acc log).1.2 = some e ∧ (ReadTXTRegs acc log).2 = log ++ (pre ++ [rd])) ∧
      ((∀ rd ∈ txtRegReads, readSucceeds acc rd) →
        (ReadTXTRegs acc log).1.2 = none ∧ (ReadTXTRegs acc log).2 = log ++ txtRegReads) := by
  rw [ReadTXTRegs_eq]
  refine ⟨by decide, ?_, ?_, ?_⟩
  · rw [Ne, firstFailure_eq_none_iff]
    simp
  · intro pre post rd e hsplit hpre hrd
    simp only [hsplit]
    exact ⟨firstFailure_append acc pre post rd e hpre hrd,
      by rw [readsPerformed_append acc pre post rd e hpre hrd]⟩
  · intro hall
    exact ⟨(firstFailure_eq_none_iff acc txtRegReads).2 hall,
      by rw [readsPerformed_of_all_ok acc txtRegReads hall]⟩

theorem C4_first_failing_read_witness :
    (ReadTXTRegs accErrorCodeFails []).1.2 = some (.errorString "read fault") ∧
      (ReadTXTRegs accErrorCodeFails []).2 =
        [(txtPublicSpace, 64), (txtPublicSpace + 0x30, 32)] :=
  (C4_first_failing_read accErrorCodeFails []).2.2.1 [(txtPublicSpace, 64)]
    (txtRegReads.drop 2) (txtPublicSpace + 0x30, 32) (.errorString "read fault")
    (by decide) (by
      intro p hp
      simp only [List.mem_singleton] at hp
      subst hp
      exact ⟨1, rfl⟩) rfl

/-! ## The BIOS data region parser: further results -/

/-- C5 (as stated, refuted): the 16-byte buffer with Version 2 and
BiosSinitSize 4 is shorter than the 36-byte header, yet the error is the
corrupt-size error and neither `io.EOF` nor `io.ErrUnexpectedEOF`. -/
theorem C5_counterexample :
    bufSize4Short.length < 36 ∧
      (ParseBIOSDataRegion bufSize4Short).2 = some errTooSmall ∧
      (ParseBIOSDataRegion bufSize4Short).2 ≠ some .EOF ∧
      (ParseBIOSDataRegion bufSize4Short).2 ≠ some .ErrUnexpectedEOF := by
  decide

/-- C5 (amended): on every buffer shorter than 36 bytes `ParseBIOSDataRegion`
fails. The error is the version error when Version is decodable and below 2,
the corrupt-size error when BiosSinitSize is decodable and below 8, and
otherwise a truncation error: `io.EOF` when the buffer ends exactly where a
field starts, `io.ErrUnexpectedEOF` when it ends inside a field. -/
theorem C5_short_buffer_fails (heap : List Byte) (hlen : heap.length < 36) :
    (ParseBIOSDataRegion heap).2 =
      some (if 12 ≤ heap.length ∧ hdrVersion heap < 2 then errVersion
        else if 16 ≤ heap.length ∧ hdrBiosSinitSize heap < 8 then errTooSmall
        else if heap.length = 0 ∨ heap.length = 8 ∨ heap.length = 12 ∨ heap.length = 16 ∨
            heap.length = 24 ∨ heap.length = 32 then GoError.EOF
        else GoError.ErrUnexpectedEOF) := by
  rw [ParseBIOSDataRegion_eq_parseOutcome]
  unfold parseOutcome truncationError
  by_cases h8 : heap.length < 8
  · have h12 : ¬ 12 ≤ heap.length := by omega
    have h16 : ¬ 16 ≤ heap.length := by omega
    by_cases h0 : heap.length = 0
    · simp [h0]
    · have : ¬ (heap.length = 0 ∨ heap.length = 8 ∨ heap.length = 12 ∨ heap.length = 16 ∨
          heap.length = 24 ∨ heap.length = 32) := by omega
      rw [if_neg this]
      simp [h8, h12, h16, h0]
  simp only [h8, if_false]
  by_cases h12 : heap.length < 12
  · have h12b : ¬ 12 ≤ heap.length := by omega
    have h16 : ¬ 16 ≤ heap.length := by omega
    by_cases h0 : heap.length - 8 = 0
    · have : heap.length = 8 := by omega
      simp [this]
    · have : ¬ (heap.length = 0 ∨ heap.length = 8 ∨ heap.length = 12 ∨ heap.length = 16 ∨
          heap.length = 24 ∨ heap.length = 32) := by omega
      rw [if_neg this]
      simp [h12, h12b, h16, h0]
  have h12b : 12 ≤ heap.length := by omega
  simp only [h12, h12b, if_false, true_and]
  by_cases hv : hdrVersion heap < 2
  · simp [hv]
  simp only [hv, if_false]
  by_cases h16 : heap.length < 16
  · have h16b : ¬ 16 ≤ heap.length := by omega
    by_cases h0 : heap.length - 12 = 0
    · have : heap.length = 12 := by omega
      simp [this]
    · have : ¬ (heap.length = 0 ∨ heap.length = 8 ∨ heap.length = 12 ∨ heap.length = 16 ∨
          heap.length = 24 ∨ heap.length = 32) := by omega
      rw [if_neg this]
      simp [h16, h16b, h0]
  have h16b : 16 ≤ heap.length := by omega
  simp only [h16, h16b, if_false, true_and]
  by_cases hs : hdrBiosSinitSize heap < 8
  · simp [hs]
  simp only [hs, if_false]
  by_cases h24 : heap.length < 24
  · by_cases h0 : heap.length - 16 = 0
    · have : heap.length = 16 := by omega
      simp [this]
    · have : ¬ (heap.length = 0 ∨ heap.length = 8 ∨ heap.length = 12 ∨ heap.length = 16 ∨
          heap.length = 24 ∨ heap.length = 32) := by omega
      rw [if_neg this]
      simp [h24, h0]
  simp only [h24, if_false]
  by_cases h32 : heap.length < 32
  · by_cases h0 : heap.length - 24 = 0
    · have : heap.length = 24 := by omega
      simp [this]
    · have : ¬ (heap.length = 0 ∨ heap.length = 8 ∨ heap.length = 12 ∨ heap.length = 16 ∨
          heap.length = 24 ∨ heap.length = 32) := by omega
      rw [if_neg this]
      simp [h32, h0]
  simp only [h32, hlen, if_false, if_true]
  by_cases h0 : heap.length - 32 = 0
  · have : heap.length = 32 := by omega
    simp [this]
  · have : ¬ (heap.length = 0 ∨ heap.length = 8 ∨ heap.length = 12 ∨ heap.length = 16 ∨
        heap.length = 24 ∨ heap.length = 32) := by omega
    rw [if_neg this]
    simp [h0]

theorem C5_short_buffer_witness :
    bufTwentyBytes.length < 36 ∧
      (ParseBIOSDataRegion bufTwentyBytes).2 = some GoError.ErrUnexpectedEOF :=
  ⟨by decide, (C5_short_buffer_fails bufTwentyBytes (by decide)).trans (by decide)⟩

/-- C6: whenever the Version field is decodable (the buffer has at least 12
bytes) and below 2, `ParseBIOSDataRegion` fails with the unsupported-version
error, whatever follows the Version field. -/
theorem C6_version_below_2_rejected (heap : List Byte) (hlen : 12 ≤ heap.length)
    (hver : hdrVersion heap < 2) :
    (ParseBIOSDataRegion heap).2 = some errVersion := by
  rw [ParseBIOSDataRegion_eq_parseOutcome, parseOutcome]
  have h1 : ¬ heap.length < 8 := by omega
  have h2 : ¬ heap.length < 12 := by omega
  simp [h1, h2, hver]

theorem C6_version_below_2_witness :
    12 ≤ bufVersion1.length ∧ hdrVersion bufVersion1 < 2 ∧
      (ParseBIOSDataRegion bufVersion1).2 = some errVersion :=
  ⟨by decide, by decide, C6_version_below_2_rejected bufVersion1 (by decide) (by decide)⟩

/-- C7: whenever Version is at least 2 and the decoded BiosSinitSize (bytes
12–15 of a buffer of at least 16 bytes) is below 8, `ParseBIOSDataRegion`
fails with the corrupt-size error, whatever the rest of the buffer holds. -/
theorem C7_small_size_rejected (heap : List Byte) (hlen : 16 ≤ heap.length)
    (hver : 2 ≤ hdrVersion heap) (hsize : hdrBiosSinitSize heap < 8) :
    (ParseBIOSDataRegion heap).2 = some errTooSmall := by
  rw [ParseBIOSDataRegion_eq_parseOutcome, parseOutcome]
  have h1 : ¬ heap.length < 8 := by omega
  have h2 : ¬ heap.length < 12 := by omega
  have h3 : ¬ heap.length < 16 := by omega
  have h4 : ¬ hdrVersion heap < 2 := by omega
  simp [h1, h2, h3, h4, hsize]

theorem C7_small_size_witness :
    16 ≤ bufSize4Long.length ∧ 2 ≤ hdrVersion bufSize4Long ∧
      hdrBiosSinitSize bufSize4Long < 8 ∧
      (ParseBIOSDataRegion bufSize4Long).2 = some errTooSmall :=
  ⟨by decide, by decide, by decide,
    C7_small_size_rejected bufSize4Long (by decide) (by decide) (by decide)⟩

/-- C8: on every buffer of at least 36 bytes with Version ≥ 2 and
BiosSinitSize ≥ 8 whose NumLogProcs is zero, `ParseBIOSDataRegion` fails with
the corrupt-processor-count error, for every Version and any trailing bytes. -/
theorem C8_zero_procs_rejected (heap : List Byte) (hlen : 36 ≤ heap.length)
    (hver : 2 ≤ hdrVersion heap) (hsize : 8 ≤ hdrBiosSinitSize heap)
    (hprocs : hdrNumLogProcs heap = 0) :
    (ParseBIOSDataRegion heap).2 = some errCorrupted := by
  rw [ParseBIOSDataRegion_eq_parseOutcome, parseOutcome]
  have h1 : ¬ heap.length < 8 := by omega
  have h2 : ¬ heap.length < 12 := by omega
  have h3 : ¬ heap.length < 16 := by omega
  have h4 : ¬ heap.length < 24 := by omega
  have h5 : ¬ heap.length < 32 := by omega
  have h6 : ¬ heap.length < 36 := by omega
  have h7 : ¬ hdrVersion heap < 2 := by omega
  have h8 : ¬ hdrBiosSinitSize heap < 8 := by omega
  simp [h1, h2, h3, h4, h5, h6, h7, h8, hprocs]

theorem C8_zero_procs_witness :
    36 ≤ bufNoProcs.length ∧ 2 ≤ hdrVersion bufNoProcs ∧ 8 ≤ hdrBiosSinitSize bufNoProcs ∧
      hdrNumLogProcs bufNoProcs = 0 ∧
      (ParseBIOSDataRegion bufNoProcs).2 = some errCorrupted :=
  ⟨by decide, by decide, by decide, by decide,
    C8_zero_procs_rejected bufNoProcs (by decide) (by decide) (by decide) (by decide)⟩

/-- C9: on every 36-byte buffer (complete header, no trailing bytes) with
Version 2, BiosSinitSize ≥ 8 and NumLogProcs ≥ 1, `ParseBIOSDataRegion`
succeeds with the five base fields decoded and both optional fields absent. -/
theorem C9_version_2_no_optional_fields (heap : List Byte) (hlen : heap.length = 36)
    (hver : hdrVersion heap = 2) (hsize : 8 ≤ hdrBiosSinitSize heap)
    (hprocs : 1 ≤ hdrNumLogProcs heap) :
    (ParseBIOSDataRegion heap).2 = none ∧
      (ParseBIOSDataRegion heap).1.SinitFlags = none ∧
      (ParseBIOSDataRegion heap).1.MleFlags = none ∧
      (ParseBIOSDataRegion heap).1 = headerPrefix heap 5 := by
  rw [ParseBIOSDataRegion_eq_parseOutcome, parseOutcome]
  have h8 : ¬ hdrBiosSinitSize heap < 8 := by omega
  have h9 : ¬ hdrNumLogProcs heap = 0 := by omega
  simp [hlen, hver, h8, h9, headerPrefix]

theorem C9_version_2_witness :
    bufVersion2.length = 36 ∧ hdrVersion bufVersion2 = 2 ∧ hdrBiosSinitSize bufVersion2 = 8 ∧
      hdrNumLogProcs bufVersion2 = 1 ∧
      ((ParseBIOSDataRegion bufVersion2).2 = none ∧
        (ParseBIOSDataRegion bufVersion2).1.SinitFlags = none ∧
        (ParseBIOSDataRegion bufVersion2).1.MleFlags = none ∧
        (ParseBIOSDataRegion bufVersion2).1 = headerPrefix bufVersion2 5) :=
  ⟨by decide, by decide, by decide, by decide,
    C9_version_2_no_optional_fields bufVersion2 (by decide) (by decide) (by decide)
      (by decide)⟩

/-- C10: on every buffer with a valid header, Version ≥ 5 and a 32-bit flags
word `w` at bytes 36–39, `ParseBIOSDataRegion` succeeds with `SinitFlags`
absent and `MleFlags` present, where SupportsACPIPPI is bit 0 of `w`,
IsClientState is `(w AND 6) = 2`, IsServerState is `(w AND 6) = 4` and
IsLegacyState is false; so no two of client, server and legacy hold together,
and `w = 0b010` gives client true, server false, ACPI-PPI false. -/
theorem C10_mle_flags_decoded (heap : List Byte) (hlen : 40 ≤ heap.length)
    (hver : 5 ≤ hdrVersion heap) (hsize : 8 ≤ hdrBiosSinitSize heap)
    (hprocs : hdrNumLogProcs heap ≠ 0) :
    (ParseBIOSDataRegion heap).2 = none ∧
      (ParseBIOSDataRegion heap).1.SinitFlags = none ∧
      ∃ f : TXTBiosMLEFlags, (ParseBIOSDataRegion heap).1.MleFlags = some f ∧
        f.SupportsACPIPPI = (hdrFlagsWord heap).testBit 0 ∧
        f.IsClientState = decide (hdrFlagsWord heap &&& 6 = 2) ∧
        f.IsServerState = decide (hdrFlagsWord heap &&& 6 = 4) ∧
        f.IsLegacyState = false ∧
        ¬ (f.IsClientState = true ∧ f.IsServerState = true) ∧
        ¬ (f.IsClientState = true ∧ f.IsLegacyState = true) ∧
        ¬ (f.IsServerState = true ∧ f.IsLegacyState = true) ∧
        (hdrFlagsWord heap = 0b010 →
          f.IsClientState = true ∧ f.IsServerState = false ∧ f.SupportsACPIPPI = false) := by
  rw [ParseBIOSDataRegion_eq_parseOutcome, parseOutcome]
  have h1 : ¬ heap.length < 8 := by omega
  have h2 : ¬ heap.length < 12 := by omega
  have h3 : ¬ heap.length < 16 := by omega
  have h4 : ¬ heap.length < 24 := by omega
  have h5 : ¬ heap.length < 32 := by omega
  have h6 : ¬ heap.length < 36 := by omega
  have h6b : ¬ heap.length < 40 := by omega
  have h7 : ¬ hdrVersion heap < 2 := by omega
  have h7b : ¬ hdrVersion heap < 5 := by omega
  have h8 : ¬ hdrBiosSinitSize heap < 8 := by omega
  have h9 : ¬ (3 ≤ hdrVersion heap ∧ hdrVersion heap < 5) := by omega
  rw [if_neg h1, if_neg h2, if_neg h7, if_neg h3, if_neg h8, if_neg h4, if_neg h5, if_neg h6,
    if_neg hprocs, if_neg h9, if_neg h7b, if_neg h6b]
  refine ⟨rfl, rfl, mleFlagsOf (hdrFlagsWord heap), rfl, rfl, rfl, rfl, rfl, ?_, ?_, ?_, ?_⟩
  · simp only [mleFlagsOf, decide_eq_true_eq]
    intro h
    omega
  · simp [mleFlagsOf]
  · simp [mleFlagsOf]
  · intro hw
    rw [hw]
    decide

theorem C10_mle_flags_witness :
    40 ≤ bufVersion5.length ∧ 5 ≤ hdrVersion bufVersion5 ∧ 8 ≤ hdrBiosSinitSize bufVersion5 ∧
      hdrNumLogProcs bufVersion5 ≠ 0 ∧ hdrFlagsWord bufVersion5 = 0b010 ∧
      (ParseBIOSDataRegion bufVersion5).1.MleFlags =
        some { SupportsACPIPPI := false, IsLegacyState := false, IsServerState := false,
               IsClientState := true } :=
  ⟨by decide, by decide, by decide, by decide, by decide,
    by
      obtain ⟨_, _, f, hf, h0, h1, h2, h3, _⟩ :=
        C10_mle_flags_decoded bufVersion5 (by decide) (by decide) (by decide) (by decide)
      rw [hf]
      have e0 : (hdrFlagsWord bufVersion5).testBit 0 = false := by decide
      have e1 : decide (hdrFlagsWord bufVersion5 &&& 6 = 2) = true := by decide
      have e2 : decide (hdrFlagsWord bufVersion5 &&& 6 = 4) = false := by decide
      rw [e0] at h0
      rw [e1] at h1
      rw [e2] at h2
      cases f
      simp_all⟩

/-! ## The BIOS data region parser: trailing bytes and field positions -/

theorem ParseBIOSDataRegion_of_parsesOk (heap : List Byte) (h : parsesOk heap) :
    ParseBIOSDataRegion heap = (successRecord heap, none) := by
  obtain ⟨hlen, hs, hn, hv⟩ := h
  rw [ParseBIOSDataRegion_eq_parseOutcome, parseOutcome, successRecord]
  have h1 : ¬ heap.length < 8 := by omega
  have h2 : ¬ heap.length < 12 := by omega
  have h3 : ¬ heap.length < 16 := by omega
  have h4 : ¬ heap.length < 24 := by omega
  have h5 : ¬ heap.length < 32 := by omega
  have h6 : ¬ heap.length < 36 := by omega
  have h7 : ¬ hdrVersion heap < 2 := by omega
  have h8 : ¬ hdrBiosSinitSize heap < 8 := by omega
  have h9 : ¬ (3 ≤ hdrVersion heap ∧ hdrVersion heap < 5) := by omega
  rw [if_neg h1, if_neg h2, if_neg h7, if_neg h3, if_neg h8, if_neg h4, if_neg h5, if_neg h6,
    if_neg hn, if_neg h9]
  rcases hv with hv | ⟨hv, hl⟩
  · have h10 : hdrVersion heap < 5 := by omega
    have h11 : ¬ 5 ≤ hdrVersion heap := by omega
    rw [if_pos h10, if_neg h11]
  · have h10 : ¬ hdrVersion heap < 5 := by omega
    have h12 : ¬ heap.length < 40 := by omega
    rw [if_neg h10, if_neg h12, if_pos hv]

theorem parsesOk_of_success (heap : List Byte) (h : (ParseBIOSDataRegion heap).2 = none) :
    parsesOk heap := by
  rw [ParseBIOSDataRegion_eq_parseOutcome] at h
  unfold parseOutcome at h
  unfold parsesOk
  by_cases h8 : heap.length < 8
  · simp [h8] at h
  simp only [h8, if_false] at h
  by_cases h12 : heap.length < 12
  · simp [h12] at h
  simp only [h12, if_false] at h
  by_cases hv : hdrVersion heap < 2
  · simp [hv] at h
  simp only [hv, if_false] at h
  by_cases h16 : heap.length < 16
  · simp [h16] at h
  simp only [h16, if_false] at h
  by_cases hs : hdrBiosSinitSize heap < 8
  · simp [hs] at h
  simp only [hs, if_false] at h
  by_cases h24 : heap.length < 24
  · simp [h24] at h
  simp only [h24, if_false] at h
  by_cases h32 : heap.length < 32
  · simp [h32] at h
  simp only [h32, if_false] at h
  by_cases h36 : heap.length < 36
  · simp [h36] at h
  simp only [h36, if_false] at h
  by_cases hn : hdrNumLogProcs heap = 0
  · simp [hn] at h
  simp only [hn, if_false] at h
  by_cases h34 : 3 ≤ hdrVersion heap ∧ hdrVersion heap < 5
  · simp [h34] at h
  simp only [h34, if_false] at h
  by_cases h5 : hdrVersion heap < 5
  · exact ⟨by omega, by omega, hn, Or.inl (by omega)⟩
  simp only [h5, if_false] at h
  by_cases h40 : heap.length < 40
  · simp [h40] at h
  exact ⟨by omega, by omega, hn, Or.inr ⟨by omega, by omega⟩⟩

theorem fieldBytes_append (b t : List Byte) (off n : Nat) (h : off + n ≤ b.length) :
    fieldBytes (b ++ t) off n = fieldBytes b off n := by
  unfold fieldBytes
  rw [List.drop_append_of_le_length (by omega), List.take_append_of_le_length]
  simp only [List.length_drop]
  omega

theorem fieldBytes_prepend (p rest : List Byte) (off n : Nat) (h : p.length ≤ off) :
    fieldBytes (p ++ rest) off n = fieldBytes rest (off - p.length) n := by
  unfold fieldBytes
  rw [List.drop_append_eq_append_drop, List.drop_eq_nil_of_le h, List.nil_append]

theorem hdr_append (b t : List Byte) :
    (12 ≤ b.length → hdrVersion (b ++ t) = hdrVersion b) ∧
      (16 ≤ b.length → hdrBiosSinitSize (b ++ t) = hdrBiosSinitSize b) ∧
      (24 ≤ b.length → hdrReserved1 (b ++ t) = hdrReserved1 b) ∧
      (32 ≤ b.length → hdrReserved2 (b ++ t) = hdrReserved2 b) ∧
      (36 ≤ b.length → hdrNumLogProcs (b ++ t) = hdrNumLogProcs b) ∧
      (40 ≤ b.length → hdrFlagsWord (b ++ t) = hdrFlagsWord b) := by
  unfold hdrVersion hdrBiosSinitSize hdrReserved1 hdrReserved2 hdrNumLogProcs hdrFlagsWord
  refine ⟨?_, ?_, ?_, ?_, ?_, ?_⟩ <;> intro h <;> rw [fieldBytes_append b t _ _ (by omega)]

theorem ParseBIOSDataRegion_prefix_irrelevant (p q rest : List Byte) (hp : p.length = 8)
    (hq : q.length = 8) :
    ParseBIOSDataRegion (p ++ rest) = ParseBIOSDataRegion (q ++ rest) := by
  have p8 := fieldBytes_prepend p rest 8 4 (by omega)
  have q8 := fieldBytes_prepend q rest 8 4 (by omega)
  have p12 := fieldBytes_prepend p rest 12 4 (by omega)
  have q12 := fieldBytes_prepend q rest 12 4 (by omega)
  have p16 := fieldBytes_prepend p rest 16 8 (by omega)
  have q16 := fieldBytes_prepend q rest 16 8 (by omega)
  have p24 := fieldBytes_prepend p rest 24 8 (by omega)
  have q24 := fieldBytes_prepend q rest 24 8 (by omega)
  have p32 := fieldBytes_prepend p rest 32 4 (by omega)
  have q32 := fieldBytes_prepend q rest 32 4 (by omega)
  have p36 := fieldBytes_prepend p rest 36 4 (by omega)
  have q36 := fieldBytes_prepend q rest 36 4 (by omega)
  rw [hp] at p8 p12 p16 p24 p32 p36
  rw [hq] at q8 q12 q16 q24 q32 q36
  simp only [ParseBIOSDataRegion_eq_parseOutcome, parseOutcome, headerPrefix, hdrVersion,
    hdrBiosSinitSize, hdrReserved1, hdrReserved2, hdrNumLogProcs, hdrFlagsWord,
    truncationError, List.length_append, mleFlagsOf, p8, q8, p12, q12, p16, q16, p24, q24, p32, q32, p36, q36, hp, hq]

theorem LittleEndianUint32_eq_leValue (bs : List Byte) (h : bs.length = 4) :
    LittleEndianUint32 bs = leValue bs := by
  match bs, h with
  | [b0, b1, b2, b3], _ =>
    rw [LittleEndianUint32_eq]
    simp only [leValue]
    omega

theorem LittleEndianUint64_eq_leValue (bs : List Byte) (h : bs.length = 8) :
    LittleEndianUint64 bs = leValue bs := by
  match bs, h with
  | [b0, b1, b2, b3, b4, b5, b6, b7], _ =>
    rw [LittleEndianUint64_eq]
    simp only [leValue]
    omega

theorem length_fieldBytes (heap : List Byte) (off n : Nat) (h : off + n ≤ heap.length) :
    (fieldBytes heap off n).length = n := by
  unfold fieldBytes
  simp only [List.length_take, List.length_drop]
  omega

/-- C11: excess trailing bytes are not an error and are never read. If
`ParseBIOSDataRegion` succeeds on a buffer `b`, then for every byte sequence
`t` it succeeds on `b ++ t` with the same record, whatever the Version. -/
theorem C11_trailing_bytes_ignored (b t : List Byte)
    (h : (ParseBIOSDataRegion b).2 = none) :
    (ParseBIOSDataRegion (b ++ t)).2 = none ∧
      (ParseBIOSDataRegion (b ++ t)).1 = (ParseBIOSDataRegion b).1 := by
  have hok := parsesOk_of_success b h
  obtain ⟨hlen, hs, hn, hv⟩ := hok
  obtain ⟨a1, a2, a3, a4, a5, a6⟩ := hdr_append b t
  have e1 := a1 (by omega)
  have e2 := a2 (by omega)
  have e3 := a3 (by omega)
  have e4 := a4 (by omega)
  have e5 := a5 (by omega)
  have hok2 : parsesOk (b ++ t) := by
    refine ⟨?_, ?_, ?_, ?_⟩
    · simp only [List.length_append]
      omega
    · rw [e2]
      exact hs
    · rw [e5]
      exact hn
    · rw [e1]
      rcases hv with hv | ⟨hv, hl⟩
      · exact Or.inl hv
      · refine Or.inr ⟨hv, ?_⟩
        simp only [List.length_append]
        omega
  rw [ParseBIOSDataRegion_of_parsesOk _ hok2,
    ParseBIOSDataRegion_of_parsesOk b ⟨hlen, hs, hn, hv⟩]
  refine ⟨rfl, ?_⟩
  simp only [successRecord, headerPrefix, e1, e2, e3, e4, e5]
  rcases hv with hv | ⟨hv, hl⟩
  · have h5 : ¬ 5 ≤ hdrVersion b := by omega
    simp only [if_neg h5]
  · rw [a6 hl]

theorem C11_trailing_bytes_witness :
    (ParseBIOSDataRegion bufVersion6Tail).2 = none ∧
      ((ParseBIOSDataRegion (bufVersion6Tail ++ [255, 254, 253])).2 = none ∧
        (ParseBIOSDataRegion (bufVersion6Tail ++ [255, 254, 253])).1 =
          (ParseBIOSDataRegion bufVersion6Tail).1) :=
  ⟨by decide, C11_trailing_bytes_ignored bufVersion6Tail [255, 254, 253] (by decide)⟩

/-- C18: on every successful `ParseBIOSDataRegion` call the base fields are
the little-endian values of fixed byte ranges after the 8-byte size prefix:
Version of bytes 8–11, BiosSinitSize of bytes 12–15, Reserved1 of bytes
16–23, Reserved2 of bytes 24–31, NumLogProcs of bytes 32–35. The prefix is
consumed but not validated: replacing the first 8 bytes by any other 8 bytes
leaves the result unchanged. -/
theorem C18_base_fields_at_fixed_positions (heap : List Byte)
    (h : (ParseBIOSDataRegion heap).2 = none) :
    (ParseBIOSDataRegion heap).1.Version = leValue (fieldBytes heap 8 4) ∧
      (ParseBIOSDataRegion heap).1.BiosSinitSize = leValue (fieldBytes heap 12 4) ∧
      (ParseBIOSDataRegion heap).1.Reserved1 = leValue (fieldBytes heap 16 8) ∧
      (ParseBIOSDataRegion heap).1.Reserved2 = leValue (fieldBytes heap 24 8) ∧
      (ParseBIOSDataRegion heap).1.NumLogProcs = leValue (fieldBytes heap 32 4) ∧
      (∀ p : List Byte, p.length = 8 →
        ParseBIOSDataRegion (p ++ heap.drop 8) = ParseBIOSDataRegion heap) ∧
      ∀ p q rest : List Byte, p.length = 8 → q.length = 8 →
        ParseBIOSDataRegion (p ++ rest) = ParseBIOSDataRegion (q ++ rest) := by
  have hok := parsesOk_of_success heap h
  have hlen : 36 ≤ heap.length := hok.1
  rw [ParseBIOSDataRegion_of_parsesOk heap hok]
  refine ⟨?_, ?_, ?_, ?_, ?_, ?_, ParseBIOSDataRegion_prefix_irrelevant⟩
  · rw [← LittleEndianUint32_eq_leValue _ (length_fieldBytes heap 8 4 (by omega))]
    unfold successRecord headerPrefix
    split <;> rfl
  · rw [← LittleEndianUint32_eq_leValue _ (length_fieldBytes heap 12 4 (by omega))]
    unfold successRecord headerPrefix
    split <;> rfl
  · rw [← LittleEndianUint64_eq_leValue _ (length_fieldBytes heap 16 8 (by omega))]
    unfold successRecord headerPrefix
    split <;> rfl
  · rw [← LittleEndianUint64_eq_leValue _ (length_fieldBytes heap 24 8 (by omega))]
    unfold successRecord headerPrefix
    split <;> rfl
  · rw [← LittleEndianUint32_eq_leValue _ (length_fieldBytes heap 32 4 (by omega))]
    unfold successRecord headerPrefix
    split <;> rfl
  · intro p hp
    have hsplit : heap = heap.take 8 ++ heap.drop 8 := (List.take_append_drop 8 heap).symm
    have htake : (heap.take 8).length = 8 := by
      simp only [List.length_take]
      omega
    have e : ParseBIOSDataRegion heap = (successRecord heap, none) :=
      ParseBIOSDataRegion_of_parsesOk heap hok
    rw [← e]
    conv => rhs; rw [hsplit]
    exact ParseBIOSDataRegion_prefix_irrelevant p _ _ hp htake

theorem C18_base_fields_witness :
    (ParseBIOSDataRegion bufVersion6Tail).2 = none ∧
      (ParseBIOSDataRegion bufVersion6Tail).1.Version = 6 ∧
      (ParseBIOSDataRegion bufVersion6Tail).1.Reserved1 = 0x0807060504030201 ∧
      (ParseBIOSDataRegion bufVersion6Tail).1.NumLogProcs = 258 ∧
      ParseBIOSDataRegion ([0, 0, 0, 0, 0, 0, 0, 0] ++ bufVersion6Tail.drop 8) =
        ParseBIOSDataRegion bufVersion6Tail :=
  have h := C18_base_fields_at_fixed_positions bufVersion6Tail (by decide)
  ⟨by decide, h.1.trans (by decide), h.2.2.1.trans (by decide),
    h.2.2.2.2.1.trans (by decide),
    h.2.2.2.2.2.1 [0, 0, 0, 0, 0, 0, 0, 0] rfl⟩

/-! ## Bit fields of the register words -/

theorem and_shiftLeft_one_ne_zero (w k : Nat) : (w &&& (1 <<< k) != 0) = w.testBit k := by
  rw [Nat.testBit_to_div_mod, Nat.one_shiftLeft]
  have h : w &&& 2 ^ k = if w.testBit k then 2 ^ k else 0 := by
    apply Nat.eq_of_testBit_eq
    intro i
    rw [Nat.testBit_and, Nat.testBit_two_pow]
    by_cases hki : k = i
    · subst hki
      cases hb : w.testBit k <;> simp [Nat.testBit_two_pow]
    · cases hb : w.testBit k <;> simp [Nat.testBit_two_pow, hki]
  rw [h, ← Nat.testBit_to_div_mod]
  cases hb : w.testBit k <;> simp

theorem shiftRight_and_one_ne_zero (w k : Nat) : ((w >>> k) &&& 1 != 0) = w.testBit k := by
  simp [Nat.testBit, Nat.and_comm]

theorem shiftRight_and_one_beq_one (w k : Nat) : ((w >>> k) &&& 1 == 1) = w.testBit k := by
  rw [Nat.testBit_to_div_mod, Nat.and_one_is_mod, Nat.shiftRight_eq_div_pow]
  rfl

theorem shiftRight_and_mask (w k n : Nat) : (w >>> k) &&& (2 ^ n - 1) = bitField w k n := by
  rw [Nat.and_pow_two_sub_one_eq_mod, Nat.shiftRight_eq_div_pow, bitField]

theorem bitField_mod (w k n m : Nat) (h : k + n ≤ m) : bitField (w % 2 ^ m) k n = bitField w k n := by
  apply Nat.eq_of_testBit_eq
  intro i
  simp only [bitField, Nat.testBit_mod_two_pow, ← Nat.shiftRight_eq_div_pow, Nat.testBit_shiftRight]
  by_cases hi : i < n
  · have : k + i < m := by omega
    simp [hi, this]
  · simp [hi]

theorem bitField_lt (w k n : Nat) : bitField w k n < 2 ^ n := Nat.mod_lt _ (Nat.two_pow_pos n)

theorem testBit_flag_shiftLeft (w k i : Nat) :
    ((w.testBit k).toNat <<< k).testBit i = (decide (i = k) && w.testBit i) := by
  rw [Nat.testBit_shiftLeft, Nat.testBit_bool_to_nat]
  by_cases h : i = k
  · subst h; simp
  · by_cases h2 : i ≥ k
    · have : ¬ (i - k = 0) := by omega
      simp [h, this]
    · simp [h, h2]

theorem testBit_bitField_shiftLeft (w lo n i : Nat) :
    (bitField w lo n <<< lo).testBit i = (decide (lo ≤ i ∧ i < lo + n) && w.testBit i) := by
  rw [Nat.testBit_shiftLeft, bitField, Nat.testBit_mod_two_pow, ← Nat.shiftRight_eq_div_pow,
    Nat.testBit_shiftRight]
  by_cases h : lo ≤ i
  · have e : lo + (i - lo) = i := by omega
    rw [e]
    by_cases h2 : i < lo + n
    · have : i - lo < n := by omega
      simp [h, h2, this]
    · have : ¬ i - lo < n := by omega
      simp [h, h2, this]
  · simp [h]

theorem testBit_mod_u32 (v i : Nat) (h : i < 32) :
    (v % 4294967296).testBit i = v.testBit i := by
  have e : (4294967296 : Nat) = 2 ^ 32 := by norm_num
  rw [e, Nat.testBit_mod_two_pow]
  simp [h]

theorem testBit_mod_u64 (v i : Nat) (h : i < 64) :
    (v % 18446744073709551616).testBit i = v.testBit i := by
  have e : (18446744073709551616 : Nat) = 2 ^ 64 := by norm_num
  rw [e, Nat.testBit_mod_two_pow]
  simp [h]

theorem statusOf_eq (v : Nat) :
    statusOf v =
      { SenterDone := v.testBit 0, SexitDone := v.testBit 1, MemConfigLock := v.testBit 6,
        PrivateOpen := v.testBit 7, Locality1Open := v.testBit 15,
        Locality2Open := v.testBit 16 } := by
  simp only [statusOf, readTXTStatus, ReadPhys, TXTStatus.zero, and_shiftLeft_one_ne_zero,
    Nat.testBit_mod_two_pow]
  simp

theorem errorCodeOf_eq (v : Nat) :
    errorCodeOf v =
      { ModuleType := bitField v 0 3, ClassCode := bitField v 4 6,
        MajorErrorCode := bitField v 10 5, SoftwareSource := v.testBit 15,
        MinorErrorCode := bitField v 16 16, Type1Reserved := bitField v 28 2,
        ProcessorSoftware := v.testBit 30, ValidInvalid := v.testBit 31 } := by
  have m3 := shiftRight_and_mask (v % 2 ^ 32) 0 3
  have m6 := shiftRight_and_mask (v % 2 ^ 32) 4 6
  have m5 := shiftRight_and_mask (v % 2 ^ 32) 10 5
  have m18 := shiftRight_and_mask (v % 2 ^ 32) 16 18
  have m2 := shiftRight_and_mask (v % 2 ^ 32) 28 2
  simp only [Nat.reducePow, Nat.reduceSub] at m3 m6 m5 m18 m2
  simp only [errorCodeOf, readTXTErrorCode, ReadPhys, TXTErrorCode.zero,
    shiftRight_and_one_ne_zero, Nat.reducePow, m3, m6, m5, m18, m2, TXTErrorCode.mk.injEq]
  refine ⟨?_, ?_, ?_, ?_, ?_, ?_, ?_, ?_⟩ <;>
    first
    | exact testBit_mod_u32 _ _ (by omega)
    | (simp only [bitField, Nat.reducePow]; omega)

/-- The raw error-code word that `readTXTErrorCode` returns next to the
decoded record is the word read, cut to 32 bits. -/
theorem errorCodeRaw_eq (v : Nat) :
    (readTXTErrorCode (fun _ _ => .ok v) []).1.2.1 = v % 2 ^ 32 := by
  simp [readTXTErrorCode, ReadPhys]

theorem dprOf_eq (v : Nat) :
    dprOf v = { Lock := v.testBit 0, Size := bitField v 4 8, Top := bitField v 20 12 } := by
  have m8 := shiftRight_and_mask (v % 2 ^ 32) 4 8
  have m12 := shiftRight_and_mask (v % 2 ^ 32) 20 12
  simp only [Nat.reducePow, Nat.reduceSub] at m8 m12
  simp only [dprOf, readDMAProtectedRange, ReadPhys, DMAProtectedRange.zero,
    and_one_ne_zero_eq_testBit, Nat.reducePow, m8, m12, DMAProtectedRange.mk.injEq]
  refine ⟨?_, ?_, ?_⟩ <;>
    first
    | exact testBit_mod_u32 _ _ (by omega)
    | (simp only [bitField, Nat.reducePow]; omega)

theorem acmStatusOf_eq (v : Nat) :
    acmStatusOf v =
      { Valid := v.testBit 31, MinorErrorCode := bitField v 16 12, ACMStarted := v.testBit 15,
        MajorErrorCode := bitField v 10 5, ClassCode := bitField v 4 6,
        ModuleType := bitField v 0 4 } := by
  have m4 := shiftRight_and_mask (v % 2 ^ 64) 0 4
  have m6 := shiftRight_and_mask (v % 2 ^ 64) 4 6
  have m5 := shiftRight_and_mask (v % 2 ^ 64) 10 5
  have m12 := shiftRight_and_mask (v % 2 ^ 64) 16 12
  simp only [Nat.reducePow, Nat.reduceSub, Nat.shiftRight_zero] at m4 m6 m5 m12
  simp only [acmStatusOf, ReadACMStatus, ReadPhys, ACMStatus.zero,
    shiftRight_and_one_beq_one, Nat.reducePow, m4, m6, m5, m12, ACMStatus.mk.injEq]
  refine ⟨?_, ?_, ?_, ?_, ?_, ?_⟩ <;>
    first
    | exact testBit_mod_u64 _ _ (by omega)
    | (simp only [bitField, Nat.reducePow]; omega)

theorem testBit_bitField (w lo n j : Nat) :
    (bitField w lo n).testBit j = (decide (j < n) && w.testBit (lo + j)) := by
  rw [bitField, Nat.testBit_mod_two_pow, ← Nat.shiftRight_eq_div_pow, Nat.testBit_shiftRight]

theorem bitField_congr (w v lo n : Nat)
    (h : ∀ i, lo ≤ i → i < lo + n → v.testBit i = w.testBit i) :
    bitField v lo n = bitField w lo n := by
  apply Nat.eq_of_testBit_eq
  intro j
  rw [testBit_bitField, testBit_bitField]
  by_cases hj : j < n
  · rw [h (lo + j) (by omega) (by omega)]
  · simp [hj]

theorem readTXTStatus_of_read (acc : Accessor) (log : ReadLog) (w : Nat)
    (h : acc txtPublicSpace 64 = .ok w) :
    readTXTStatus acc log = ((statusOf w, none), log ++ [(txtPublicSpace, 64)]) := by
  simp [readTXTStatus, statusOf, ReadPhys, h]

theorem ReadACMStatus_of_read (acc : Accessor) (log : ReadLog) (w : Nat)
    (h : acc (txtPublicSpace + 0x328) 64 = .ok w) :
    ReadACMStatus acc log = ((acmStatusOf w, none), log ++ [(txtPublicSpace + 0x328, 64)]) := by
  simp [ReadACMStatus, acmStatusOf, ReadPhys, h]

/-! ## The register decoders: results -/

/-- C12: when the 64-bit read at TXT public base + 0x328 yields `w`,
`ReadACMStatus` issues that one read and returns Valid = bit 31 of `w`,
MinorErrorCode = bits 16–27 (so below 4096), ACMStarted = bit 15,
MajorErrorCode = bits 10–14, ClassCode = bits 4–9, ModuleType = bits 0–3.
Any word agreeing with `w` on bits 0–27 and 31 gives the same result, so bits
28–30 and 32–63 have no influence. -/
theorem C12_acm_status_fields (acc : Accessor) (log : ReadLog) (w : Nat)
    (hread : acc (txtPublicSpace + 0x328) 64 = .ok w) :
    (ReadACMStatus acc log).1 =
        ({ Valid := w.testBit 31, MinorErrorCode := bitField w 16 12,
           ACMStarted := w.testBit 15, MajorErrorCode := bitField w 10 5,
           ClassCode := bitField w 4 6, ModuleType := bitField w 0 4 }, none) ∧
      (ReadACMStatus acc log).2 = log ++ [(txtPublicSpace + 0x328, 64)] ∧
      (ReadACMStatus acc log).1.1.MinorErrorCode < 4096 ∧
      ∀ (acc2 : Accessor) (log2 : ReadLog) (v : Nat),
        acc2 (txtPublicSpace + 0x328) 64 = .ok v →
        (∀ i, i < 28 ∨ i = 31 → v.testBit i = w.testBit i) →
        (ReadACMStatus acc2 log2).1 = (ReadACMStatus acc log).1 := by
  rw [ReadACMStatus_of_read acc log w hread, acmStatusOf_eq]
  refine ⟨rfl, rfl, bitField_lt w 16 12, ?_⟩
  intro acc2 log2 v hv hagree
  rw [ReadACMStatus_of_read acc2 log2 v hv, acmStatusOf_eq]
  rw [hagree 31 (by omega), hagree 15 (by omega),
    bitField_congr w v 16 12 (fun i _ _ => hagree i (by omega)),
    bitField_congr w v 10 5 (fun i _ _ => hagree i (by omega)),
    bitField_congr w v 4 6 (fun i _ _ => hagree i (by omega)),
    bitField_congr w v 0 4 (fun i _ _ => hagree i (by omega))]

theorem C12_acm_status_witness :
    accConst 0x80018C42 (txtPublicSpace + 0x328) 64 = .ok 0x80018C42 ∧
      (ReadACMStatus (accConst 0x80018C42) []).1 =
        ({ Valid := true, MinorErrorCode := 1, ACMStarted := true, MajorErrorCode := 3,
           ClassCode := 4, ModuleType := 2 }, none) :=
  ⟨rfl, (C12_acm_status_fields (accConst 0x80018C42) [] 0x80018C42 rfl).1.trans (by decide)⟩

/-- C13 (code defect): the error-code words 0 and 0x10000000 differ only in
bit 28, yet `readTXTErrorCode` decodes different `MinorErrorCode` values for
them (0 and 4096) as well as different `Type1Reserved` values (0 and 1). So
`MinorErrorCode` is not confined to bits 27:16, can reach 2^12 and above, and
bit 28 feeds two decoded fields: the mask `0x3ffff` keeps bits 31:16. -/
theorem C13_minor_error_code_overlaps :
    (errorCodeOf 0x10000000).MinorErrorCode = 4096 ∧
      (errorCodeOf 0x10000000).Type1Reserved = 1 ∧
      (errorCodeOf 0).MinorErrorCode = 0 ∧
      (errorCodeOf 0).Type1Reserved = 0 ∧
      ¬ (errorCodeOf 0x10000000).MinorErrorCode < 2 ^ 12 := by
  decide

theorem encodeTXTStatus_statusOf (w : Nat) (h : zeroOutside statusBits w) :
    encodeTXTStatus (statusOf w) = w := by
  rw [statusOf_eq]
  apply Nat.eq_of_testBit_eq
  intro i
  simp only [encodeTXTStatus, Nat.testBit_or, testBit_flag_shiftLeft]
  cases hb : w.testBit i
  · simp
  · have hmem : i ∈ statusBits := by
      by_contra hni
      rw [h i hni] at hb
      cases hb
    simp [statusBits] at hmem
    simp
    omega

theorem encodeTXTErrorCode_errorCodeOf (w : Nat) (h : zeroOutside errorCodeBits w) :
    encodeTXTErrorCode (errorCodeOf w) = w := by
  rw [errorCodeOf_eq]
  apply Nat.eq_of_testBit_eq
  intro i
  simp only [encodeTXTErrorCode, Nat.testBit_or, testBit_flag_shiftLeft,
    testBit_bitField_shiftLeft]
  cases hb : w.testBit i
  · simp
  · have hmem : i ∈ errorCodeBits := by
      by_contra hni
      rw [h i hni] at hb
      cases hb
    simp [errorCodeBits, List.mem_range'_1] at hmem
    simp
    omega

theorem encodeDMAProtectedRange_dprOf (w : Nat) (h : zeroOutside dprBits w) :
    encodeDMAProtectedRange (dprOf w) = w := by
  rw [dprOf_eq]
  apply Nat.eq_of_testBit_eq
  intro i
  simp only [encodeDMAProtectedRange, Nat.testBit_or, testBit_flag_shiftLeft,
    testBit_bitField_shiftLeft]
  cases hb : w.testBit i
  · simp
  · have hmem : i ∈ dprBits := by
      by_contra hni
      rw [h i hni] at hb
      cases hb
    simp [dprBits, List.mem_range'_1] at hmem
    simp
    omega

theorem encodeACMStatus_acmStatusOf (w : Nat) (h : zeroOutside acmStatusBits w) :
    encodeACMStatus (acmStatusOf w) = w := by
  rw [acmStatusOf_eq]
  apply Nat.eq_of_testBit_eq
  intro i
  simp only [encodeACMStatus, Nat.testBit_or, testBit_flag_shiftLeft,
    testBit_bitField_shiftLeft]
  cases hb : w.testBit i
  · simp
  · have hmem : i ∈ acmStatusBits := by
      by_contra hni
      rw [h i hni] at hb
      cases hb
    simp [acmStatusBits, List.mem_range'_1] at hmem
    simp
    omega

theorem lt_two_pow_of_zeroOutside (doc : List Nat) (w n : Nat) (h : zeroOutside doc w)
    (hdoc : ∀ i ∈ doc, i < n) : w < 2 ^ n := by
  apply Nat.lt_pow_two_of_testBit
  intro i hi
  apply h
  intro hmem
  have := hdoc i hmem
  omega

theorem zeroOutside_of_lt (doc : List Nat) (w n : Nat) (hw : w < 2 ^ n)
    (h : ∀ i, i < n → i ∉ doc → w.testBit i = false) : zeroOutside doc w := by
  intro i hi
  by_cases hin : i < n
  · exact h i hin hi
  · exact Nat.testBit_lt_two_pow
      (lt_of_lt_of_le hw (Nat.pow_le_pow_right (by norm_num) (by omega)))

/-- C14: round trip for the four register decoders. For a status word, an
error-code word, a DPR word and an ACM status word whose bits outside the
documented fields are zero, putting every decoded field back at its bit
position and OR-ing the results gives the original word; the raw error code
kept next to the decoded one is the original word as well. -/
theorem C14_decode_reencode_roundtrip (ws we wd wa : Nat)
    (hs : zeroOutside statusBits ws) (he : zeroOutside errorCodeBits we)
    (hd : zeroOutside dprBits wd) (ha : zeroOutside acmStatusBits wa) :
    encodeTXTStatus (readTXTStatus (accConst ws) []).1.1 = ws ∧
      encodeTXTErrorCode (readTXTErrorCode (accConst we) []).1.1 = we ∧
      (readTXTErrorCode (accConst we) []).1.2.1 = we ∧
      encodeDMAProtectedRange (readDMAProtectedRange (accConst wd) []).1.1 = wd ∧
      encodeACMStatus (ReadACMStatus (accConst wa) []).1.1 = wa := by
  refine ⟨encodeTXTStatus_statusOf ws hs, encodeTXTErrorCode_errorCodeOf we he, ?_,
    encodeDMAProtectedRange_dprOf wd hd, encodeACMStatus_acmStatusOf wa ha⟩
  have hlt : we < 2 ^ 32 := by
    apply lt_two_pow_of_zeroOutside errorCodeBits we 32 he
    intro i hi
    simp [errorCodeBits, List.mem_range'_1] at hi
    omega
  have e := errorCodeRaw_eq we
  rw [Nat.mod_eq_of_lt hlt] at e
  exact e

theorem C14_roundtrip_witness :
    encodeTXTStatus (readTXTStatus (accConst 0x180C3) []).1.1 = 0x180C3 ∧
      encodeTXTErrorCode (readTXTErrorCode (accConst 0xFFFFFFF7) []).1.1 = 0xFFFFFFF7 ∧
      (readTXTErrorCode (accConst 0xFFFFFFF7) []).1.2.1 = 0xFFFFFFF7 ∧
      encodeDMAProtectedRange (readDMAProtectedRange (accConst 0xFFF00FF1) []).1.1 =
        0xFFF00FF1 ∧
      encodeACMStatus (ReadACMStatus (accConst 0x8FFFFFFF) []).1.1 = 0x8FFFFFFF :=
  C14_decode_reencode_roundtrip 0x180C3 0xFFFFFFF7 0xFFF00FF1 0x8FFFFFFF
    (zeroOutside_of_lt statusBits 0x180C3 32 (by decide) (by decide))
    (zeroOutside_of_lt errorCodeBits 0xFFFFFFF7 32 (by decide) (by decide))
    (zeroOutside_of_lt dprBits 0xFFF00FF1 32 (by decide) (by decide))
    (zeroOutside_of_lt acmStatusBits 0x8FFFFFFF 32 (by decide) (by decide))

/-- C15: when the read of TXT.STS yields `w`, the six flags of `readTXTStatus`
are bits 0, 1, 6, 7, 15, 16 of `w`; hence any status word agreeing with `w`
on these six bits gives the same `TXTStatus`, whatever its reserved bits. -/
theorem C15_status_reads_documented_bits (acc : Accessor) (log : ReadLog) (w : Nat)
    (hread : acc txtPublicSpace 64 = .ok w) :
    (readTXTStatus acc log).1 =
        ({ SenterDone := w.testBit 0, SexitDone := w.testBit 1,
           MemConfigLock := w.testBit 6, PrivateOpen := w.testBit 7,
           Locality1Open := w.testBit 15, Locality2Open := w.testBit 16 }, none) ∧
      ∀ (acc2 : Accessor) (log2 : ReadLog) (v : Nat), acc2 txtPublicSpace 64 = .ok v →
        (∀ i ∈ statusBits, v.testBit i = w.testBit i) →
        (readTXTStatus acc2 log2).1 = (readTXTStatus acc log).1 := by
  rw [readTXTStatus_of_read acc log w hread, statusOf_eq]
  refine ⟨rfl, ?_⟩
  intro acc2 log2 v hv hagree
  rw [readTXTStatus_of_read acc2 log2 v hv, statusOf_eq]
  rw [hagree 0 (by decide), hagree 1 (by decide), hagree 6 (by decide),
    hagree 7 (by decide), hagree 15 (by decide), hagree 16 (by decide)]

theorem C15_status_witness :
    accConst 0xFFFFFFFFFFFE7F7C txtPublicSpace 64 = .ok 0xFFFFFFFFFFFE7F7C ∧
      (readTXTStatus (accConst 0xFFFFFFFFFFFE7F7C) []).1 =
        ({ SenterDone := false, SexitDone := false, MemConfigLock := true,
           PrivateOpen := false, Locality1Open := false, Locality2Open := false }, none) :=
  ⟨rfl,
    (C15_status_reads_documented_bits (accConst 0xFFFFFFFFFFFE7F7C) [] 0xFFFFFFFFFFFE7F7C
      rfl).1.trans (by decide)⟩

/-! ## The feature queries: results -/

theorem and_two_pow_beq (x k : Nat) : (x &&& 2 ^ k == 2 ^ k) = x.testBit k := by
  have h2 : x &&& 2 ^ k = if x.testBit k then 2 ^ k else 0 := by
    apply Nat.eq_of_testBit_eq
    intro i
    rw [Nat.testBit_and, Nat.testBit_two_pow]
    by_cases hki : k = i
    · subst hki
      cases hb : x.testBit k <;> simp [Nat.testBit_two_pow]
    · cases hb : x.testBit k <;> simp [Nat.testBit_two_pow, hki]
  rw [h2]
  have hpos : 0 < 2 ^ k := Nat.two_pow_pos k
  cases hb : x.testBit k
  · simp
    omega
  · simp

theorem txtLeaves_bits (v : Nat) :
    ((((v % 2 ^ 64) >>> 8 &&& 0x1ff) &&& 0xff == 0xff) ||
        (((v % 2 ^ 64) >>> 8 &&& 0x1ff) &&& 0x100 == 0x100)) =
      (decide (bitField v 8 8 = 255) || v.testBit 16) := by
  have m9 := shiftRight_and_mask (v % 2 ^ 64) 8 9
  have m8 := Nat.and_pow_two_sub_one_eq_mod (bitField (v % 2 ^ 64) 8 9) 8
  have b8 := and_two_pow_beq (bitField (v % 2 ^ 64) 8 9) 8
  simp only [Nat.reducePow, Nat.reduceSub] at m9 m8 b8 ⊢
  rw [m9, m8, b8, testBit_bitField]
  have e1 : bitField (v % 18446744073709551616) 8 9 % 256 = bitField v 8 8 := by
    simp only [bitField, Nat.reducePow]
    omega
  rw [e1, testBit_mod_u64 v (8 + 8) (by omega)]
  simp
  rfl

theorem HasSMRR_contract :
    queryContract HasSMRR 0xfe "IA32_MTRRCAP" (fun v => v.testBit 11) := by
  intro dev t
  have hname : "Cannot access MSR " ++ "IA32_MTRRCAP" ++ ": " =
      "Cannot access MSR IA32_MTRRCAP: " := by decide
  rw [hname]
  cases h : dev t 0 0xfe with
  | error e => simp [HasSMRR, ReadMSR, h]
  | ok v =>
    have hb := shiftRight_and_one_ne_zero (v % 18446744073709551616) 11
    simp only [HasSMRR, ReadMSR, h, Nat.reducePow, hb, testBit_mod_u64 v 11 (by omega)]
    simp

theorem IA32FeatureControlIsLocked_contract :
    queryContract IA32FeatureControlIsLocked 0x3a "IA32_FEATURE_CONTROL"
      (fun v => v.testBit 0) := by
  intro dev t
  have hname : "Cannot access MSR " ++ "IA32_FEATURE_CONTROL" ++ ": " =
      "Cannot access MSR IA32_FEATURE_CONTROL: " := by decide
  rw [hname]
  cases h : dev t 0 0x3a with
  | error e => simp [IA32FeatureControlIsLocked, ReadMSR, h]
  | ok v =>
    simp only [IA32FeatureControlIsLocked, ReadMSR, h, Nat.reducePow,
      and_one_ne_zero_eq_testBit, testBit_mod_u64 v 0 (by omega)]
    simp

theorem AllowsVMXInSMX_contract :
    queryContract AllowsVMXInSMX 0x3a "IA32_FEATURE_CONTROL" (fun _ => true) := by
  intro dev t
  have hname : "Cannot access MSR " ++ "IA32_FEATURE_CONTROL" ++ ": " =
      "Cannot access MSR IA32_FEATURE_CONTROL: " := by decide
  rw [hname]
  cases h : dev t 0 0x3a with
  | error e => simp [AllowsVMXInSMX, ReadMSR, h]
  | ok v =>
    have hm : ((1 <<< 1) &&& (1 <<< 5) &&& (1 <<< 6)) % 2 ^ 64 = 0 := by decide
    simp only [AllowsVMXInSMX, ReadMSR, h, hm]
    simp

theorem TXTLeavesAreEnabled_contract :
    queryContract TXTLeavesAreEnabled 0x3a "IA32_FEATURE_CONTROL"
      (fun v => decide (bitField v 8 8 = 255) || v.testBit 16) := by
  intro dev t
  have hname : "Cannot access MSR " ++ "IA32_FEATURE_CONTROL" ++ ": " =
      "Cannot access MSR IA32_FEATURE_CONTROL: " := by decide
  rw [hname]
  cases h : dev t 0 0x3a with
  | error e => simp [TXTLeavesAreEnabled, ReadMSR, h]
  | ok v =>
    have hb := txtLeaves_bits v
    simp only [TXTLeavesAreEnabled, ReadMSR, h, hb]
    simp

/-- C16: the mask of `AllowsVMXInSMX`, the AND of the single-bit masks for
bits 1, 5 and 6, is zero; so whenever the read of IA32_FEATURE_CONTROL
succeeds, with any value, `AllowsVMXInSMX` returns `true` and no error. -/
theorem C16_vmx_in_smx_always_true (dev : MSRDevice) (t v : Nat)
    (hread : dev t 0 0x3a = .ok v) :
    ((1 <<< 1) &&& (1 <<< 5) &&& (1 <<< 6) : Nat) = 0 ∧
      AllowsVMXInSMX dev t = ((true, none), t + 1) := by
  have hm : ((1 <<< 1) &&& (1 <<< 5) &&& (1 <<< 6)) % 2 ^ 64 = 0 := by decide
  refine ⟨by decide, ?_⟩
  simp only [AllowsVMXInSMX, ReadMSR, hread, hm]
  simp

theorem C16_vmx_in_smx_witness :
    devConst 0 0 0 0x3a = .ok 0 ∧ Nat.testBit 0 1 = false ∧ Nat.testBit 0 5 = false ∧
      Nat.testBit 0 6 = false ∧ AllowsVMXInSMX (devConst 0) 0 = ((true, none), 1) :=
  ⟨rfl, by decide, by decide, by decide, (C16_vmx_in_smx_always_true (devConst 0) 0 0 rfl).2⟩

/-- C17: each of `HasSMRR`, `IA32FeatureControlIsLocked`, `AllowsVMXInSMX`
and `TXTLeavesAreEnabled` returns an error exactly when its MSR read fails;
the message is then "Cannot access MSR " with the register name
(IA32_MTRRCAP for `HasSMRR`, IA32_FEATURE_CONTROL for the others), a colon and
the text of the read error. When the read succeeds the error is nil and the
boolean depends on the value only: bit 11 for `HasSMRR`, bit 0 for
`IA32FeatureControlIsLocked`. -/
theorem C17_feature_queries_report_read_errors :
    queryContract HasSMRR 0xfe "IA32_MTRRCAP" (fun v => v.testBit 11) ∧
      queryContract IA32FeatureControlIsLocked 0x3a "IA32_FEATURE_CONTROL"
        (fun v => v.testBit 0) ∧
      queryContract AllowsVMXInSMX 0x3a "IA32_FEATURE_CONTROL" (fun _ => true) ∧
      queryContract TXTLeavesAreEnabled 0x3a "IA32_FEATURE_CONTROL"
        (fun v => decide (bitField v 8 8 = 255) || v.testBit 16) :=
  ⟨HasSMRR_contract, IA32FeatureControlIsLocked_contract, AllowsVMXInSMX_contract,
    TXTLeavesAreEnabled_contract⟩

theorem C17_feature_queries_witness :
    HasSMRR (devFails "no such device") 0 =
        ((false, some (.errorString "Cannot access MSR IA32_MTRRCAP: no such device")), 1) ∧
      HasSMRR (devConst 0x800) 0 = ((true, none), 1) :=
  ⟨((C17_feature_queries_report_read_errors.1 (devFails "no such device") 0).2.1
      (.errorString "no such device") rfl).trans (by decide),
    ((C17_feature_queries_report_read_errors.1 (devConst 0x800) 0).2.2 0x800 rfl).trans
      (by decide)⟩

/-! ## The cached register snapshot: results -/

theorem getTxtRegistersCalls_cached (regs : TXTRegisterSpace) (later : List Accessor)
    (log : ReadLog) :
    getTxtRegistersCalls (some regs) later log =
      (later.map (fun _ => (some regs, none)), some regs, log) := by
  induction later with
  | nil => rfl
  | cons acc rest ih => simp [getTxtRegistersCalls, getTxtRegisters, ih]

theorem readsPerformed_txtRegReads_ne_nil (acc : Accessor) :
    readsPerformed acc txtRegReads ≠ [] := by
  simp only [txtRegReads, txtRegSteps, List.map, readsPerformed]
  split <;> simp

/-- C19: `getTxtRegisters` memoizes the register snapshot. Starting from an
empty cache, a call whose reads all succeed returns the snapshot and stores
it, and every later call returns that snapshot without issuing a read,
whatever the hardware would answer by then. A call in which a read fails
returns the error and leaves the cache empty, so the next call issues the
reads again. -/
theorem C19_register_snapshot_memoized (acc : Accessor) (log : ReadLog) :
    (∀ regs, (ReadTXTRegs acc log).1 = (regs, none) →
        ∀ later : List Accessor,
          getTxtRegistersCalls none (acc :: later) log =
            ((some regs, none) :: later.map (fun _ => (some regs, none)), some regs,
              (ReadTXTRegs acc log).2)) ∧
      (∀ regs err, (ReadTXTRegs acc log).1 = (regs, some err) →
        getTxtRegisters none acc log = ((none, some err), none, (ReadTXTRegs acc log).2) ∧
        ∀ (acc2 : Accessor) (log2 : ReadLog),
          (getTxtRegisters none acc2 log2).2.2 = log2 ++ readsPerformed acc2 txtRegReads ∧
          readsPerformed acc2 txtRegReads ≠ []) := by
  constructor
  · intro regs h later
    have e : ReadTXTRegs acc log = ((regs, none), (ReadTXTRegs acc log).2) := by
      rw [← h]
    simp only [getTxtRegistersCalls, getTxtRegisters]
    rw [e]
    simp only [getTxtRegistersCalls_cached]
  · intro regs err h
    have e : ReadTXTRegs acc log = ((regs, some err), (ReadTXTRegs acc log).2) := by
      rw [← h]
    constructor
    · simp only [getTxtRegisters]
      rw [e]
    · intro acc2 log2
      refine ⟨?_, readsPerformed_txtRegReads_ne_nil acc2⟩
      have e2 := ReadTXTRegs_eq acc2 log2
      simp only [getTxtRegisters]
      rw [e2]
      cases firstFailure acc2 txtRegReads <;> rfl

theorem C19_register_snapshot_witness :
    (getTxtRegistersCalls none [accConst 0, accAddr, accErrorCodeFails] []).1 =
        [(some (ReadTXTRegs (accConst 0) []).1.1, none),
         (some (ReadTXTRegs (accConst 0) []).1.1, none),
         (some (ReadTXTRegs (accConst 0) []).1.1, none)] ∧
      (getTxtRegistersCalls none [accConst 0, accAddr, accErrorCodeFails] []).2.2 =
        txtRegReads ∧
      (ReadTXTRegs accAddr []).1.1 ≠ (ReadTXTRegs (accConst 0) []).1.1 :=
  have h := (C19_register_snapshot_memoized (accConst 0) []).1
    (ReadTXTRegs (accConst 0) []).1.1 (by decide) [accAddr, accErrorCodeFails]
  ⟨by rw [h]; rfl, by rw [h]; decide, by decide⟩

/-! ## The IA32_FEATURE_CONTROL test: results -/

/-- C20: `Test08Ia32FeatureCtrl` does not look at the VMX-in-SMX bits. When
both reads of IA32_FEATURE_CONTROL succeed, with any values, its result is
bit 0 of the value of the second read; it returns an error exactly when one
of the two reads fails. -/
theorem C20_feature_ctrl_test_is_lock_bit (dev : MSRDevice) (t : Nat) :
    (∀ v1 v2, dev t 0 0x3a = .ok v1 → dev (t + 1) 0 0x3a = .ok v2 →
        Test08Ia32FeatureCtrl dev t = ((v2.testBit 0, none), t + 2)) ∧
      ((Test08Ia32FeatureCtrl dev t).1.2 ≠ none ↔
        (∃ e, dev t 0 0x3a = .error e) ∨ (∃ e, dev (t + 1) 0 0x3a = .error e)) := by
  have ha := AllowsVMXInSMX_contract dev t
  have hl := IA32FeatureControlIsLocked_contract dev (t + 1)
  cases h1 : dev t 0 0x3a with
  | error e1 =>
    have e := ha.2.1 e1 h1
    simp [Test08Ia32FeatureCtrl, e]
  | ok v1 =>
    have e := ha.2.2 v1 h1
    cases h2 : dev (t + 1) 0 0x3a with
    | error e2 =>
      have e' := hl.2.1 e2 h2
      simp [Test08Ia32FeatureCtrl, e, e']
    | ok v2 =>
      have e' := hl.2.2 v2 h2
      simp [Test08Ia32FeatureCtrl, e, e']

theorem C20_feature_ctrl_test_witness :
    Test08Ia32FeatureCtrl (devTwo 0 1) 0 = ((true, none), 2) ∧
      Test08Ia32FeatureCtrl (devTwo 0x62 0x62) 0 = ((false, none), 2) :=
  ⟨((C20_feature_ctrl_test_is_lock_bit (devTwo 0 1) 0).1 0 1 rfl rfl).trans (by decide),
    ((C20_feature_ctrl_test_is_lock_bit (devTwo 0x62 0x62) 0).1 0x62 0x62 rfl rfl).trans
      (by decide)⟩

end TxtSuite
